import Mathlib

/-!
Verification development for the network-topology / validation core
(`src/network_topology.py`, `src/validator.py`).

The Python data structures are embedded shallowly:
Python dicts keyed by strings become insertion-ordered association lists
(`List (String × _)`) with dict-assignment semantics (`insertA`), Python
`dict.get` with a default becomes `Option` plus `getD`, and code that can
raise (`KeyError`, `ValueError`, `IndexError`, `s[-1]` on an empty string)
returns `Except String _`.  Graph algorithms delegated to networkx
(`has_path`, `articulation_points`, `bridges`, `simple_cycles`) are embedded
as executable definitions over a vertex list and an undirected edge list,
with reachability computed by a fueled expansion whose fuel exceeds any
possible path length.
-/

namespace NetVerif

/-- One parsed VLAN declaration of a device (`vlans` entries of the record
produced by the config layer; fields accessed with `dict.get`). -/
structure Vlan where
  id : Option Nat := none
  name : Option String := none
deriving DecidableEq

/-- One routing-protocol binding of a device record. -/
structure RoutingProtocol where
  protocol : Option String := none
deriving DecidableEq

/-- One parsed interface of a device record.  Every field except the name is
read with `dict.get` in the sources, hence `Option`; `name` is accessed
directly (`interface['name']`). -/
structure Interface where
  name : String
  ip_address : Option String := none
  subnet_mask : Option String := none
  vlan : Option Nat := none
  mtu : Option Nat := none
  bandwidth : Option Nat := none
  status : Option String := none
deriving DecidableEq

/-- A device record as stored in `topology_data['devices']`; the device name
is the association-list key.  `device_type` is `Option` because several code
paths read it with `dict.get` while others index it directly (the latter are
modelled as `Except`). -/
structure Device where
  device_type : Option String := none
  interfaces : List Interface := []
  vlans : List Vlan := []
  routing_protocols : List RoutingProtocol := []
deriving DecidableEq

/-- One endpoint of a stored link (`link['device1']` / `link['device2']`).
Subnet-derived links store the grouped member (with ip and bandwidth);
switch management links store only `device_id` and the literal interface
name `"mgmt"`. -/
structure LinkEnd where
  device_id : String
  interface : String
  ip_address : Option String := none
  bandwidth : Option Nat := none
deriving DecidableEq

/-- A stored link record (`self.links[link_id]`).  Switch links carry no
`subnet` key, modelled as `none`. -/
structure Link where
  device1 : LinkEnd
  device2 : LinkEnd
  subnet : Option String := none
  bandwidth_mbps : Nat
  current_utilization : Nat := 0
deriving DecidableEq

/-- The link table `self.links`: a Python dict from link id to link,
insertion ordered. -/
abbrev Links := List (String × Link)

/-- The validator input `topology_data`: the `devices` and `links` dicts. -/
structure Topology where
  devices : List (String × Device) := []
  links : Links := []
deriving DecidableEq

/-- Per-link utilization summary consumed by the capacity rule. -/
structure UtilizationInfo where
  utilization_percent : ℚ := 0
deriving DecidableEq

/-- The optional `traffic_analysis` argument of the validator. -/
structure Traffic where
  link_utilization : List (String × UtilizationInfo) := []
deriving DecidableEq

/-- Python dict assignment `d[k] = v`: replace in place when the key exists,
otherwise append at the end. -/
def insertA {β : Type} (l : List (String × β)) (k : String) (v : β) :
    List (String × β) :=
  match l with
  | [] => [(k, v)]
  | (k2, v2) :: rest =>
      if k2 = k then (k, v) :: rest else (k2, v2) :: insertA rest k v

/-- `defaultdict(list)`-style accumulation: append `v` to the bucket of `k`,
creating the bucket at the end on first use. -/
def appendAL {κ β : Type} [DecidableEq κ] (l : List (κ × List β)) (k : κ)
    (v : β) : List (κ × List β) :=
  match l with
  | [] => [(k, [v])]
  | (k2, vs) :: rest =>
      if k2 = k then (k2, vs ++ [v]) :: rest else (k2, vs) :: appendAL rest k v

/-- Split a character list at every occurrence of `c`, the way Python
`str.split` splits on a one-character separator (empty pieces kept). -/
def splitOnChar (c : Char) : List Char → List (List Char)
  | [] => [[]]
  | x :: xs =>
      match splitOnChar c xs with
      | [] => if x = c then [[], []] else [[x]]
      | y :: ys => if x = c then [] :: y :: ys else (x :: y) :: ys

/-- Python `int(token)` on a nonnegative decimal token: all characters must
be digits and the token nonempty, else `ValueError`. -/
def charsToNat (l : List Char) : Option Nat :=
  match l with
  | [] => none
  | _ =>
      l.foldl
        (fun acc c =>
          acc.bind (fun n =>
            if c.isDigit then some (n * 10 + (c.toNat - 48)) else none))
        (some 0)

/-- `[int(x) for x in s.split('.')]`: parse every dot-separated token as a
natural number, raising (`ValueError`) when a token is not numeric. -/
def parseOctets (s : String) : Except String (List Nat) :=
  (splitOnChar '.' s.data).mapM (fun part =>
    match charsToNat part with
    | some n => .ok n
    | none => .error ("invalid literal for int: " ++ String.mk part))

/-- `NetworkTopology._calculate_subnet`: bitwise AND of the first four
octets of address and mask, re-joined with dots.  Unlike the validator's
copy this method has no `try`, so malformed input propagates the error
(Python `ValueError` / `IndexError`). -/
def calculate_subnet (ip mask : String) : Except String String := do
  let ipParts ← parseOctets ip
  let maskParts ← parseOctets mask
  if 4 ≤ ipParts.length ∧ 4 ≤ maskParts.length then
    .ok (String.intercalate "."
      ((List.range 4).map
        (fun i => toString (Nat.land (ipParts.getD i 0) (maskParts.getD i 0)))))
  else
    .error "list index out of range"

/-- One member of a subnet group, as appended by `_build_connections`:
`{'device_id', 'interface', 'ip_address', 'bandwidth'}` with the bandwidth
read as `interface.get('bandwidth', 100)`. -/
structure SubnetMember where
  device_id : String
  interface : String
  ip_address : String
  bandwidth : Nat
deriving DecidableEq

/-- The member record appended for a device interface during subnet
grouping; the bandwidth default in `_build_connections` is `100`. -/
def subnetMemberOf (did : String) (itf : Interface) (ip : String) :
    SubnetMember :=
  { device_id := did
    interface := itf.name
    ip_address := ip
    bandwidth := itf.bandwidth.getD 100 }

/-- The subnet grouping accumulator `subnet_devices`. -/
abbrev SubnetGroups := List (String × List SubnetMember)

/-- Inner loop of `_build_connections`: walk one device's interfaces and
bucket every interface carrying both an ip address and a mask under its
computed subnet key. -/
def groupInterfaces (did : String) (gs : SubnetGroups) :
    List Interface → Except String SubnetGroups
  | [] => .ok gs
  | itf :: rest =>
      match itf.ip_address, itf.subnet_mask with
      | some ip, some mask =>
          match calculate_subnet ip mask with
          | .error e => .error e
          | .ok subnet =>
              groupInterfaces did (appendAL gs subnet (subnetMemberOf did itf ip)) rest
      | _, _ => groupInterfaces did gs rest

/-- Outer loop of the grouping phase of `_build_connections`. -/
def groupDevices (gs : SubnetGroups) :
    List (String × Device) → Except String SubnetGroups
  | [] => .ok gs
  | (did, cfg) :: rest =>
      match groupInterfaces did gs cfg.interfaces with
      | .error e => .error e
      | .ok gs2 => groupDevices gs2 rest

/-- Subnet grouping over the whole device table. -/
def groupBySubnet (devices : List (String × Device)) :
    Except String SubnetGroups :=
  groupDevices [] devices

/-- All ordered pairs `(l[i], l[j])` with `i < j`, in the iteration order of
the nested loops `for i, d1 in enumerate(...)` / `for d2 in l[i+1:]`. -/
def pairsOf {α : Type} : List α → List (α × α)
  | [] => []
  | x :: xs => xs.map (fun y => (x, y)) ++ pairsOf xs

/-- Link id of a member pair: `f"{device1}-{device2}"`. -/
def linkId (p : SubnetMember × SubnetMember) : String :=
  p.1.device_id ++ "-" ++ p.2.device_id

/-- The link record written by `_add_link` for a member pair: bandwidth is
the minimum of the two members' bandwidths and the subnet tag is stored. -/
def subnetLinkEntry (subnet : String) (p : SubnetMember × SubnetMember) :
    String × Link :=
  (linkId p,
    { device1 := { device_id := p.1.device_id, interface := p.1.interface
                   ip_address := some p.1.ip_address, bandwidth := some p.1.bandwidth }
      device2 := { device_id := p.2.device_id, interface := p.2.interface
                   ip_address := some p.2.ip_address, bandwidth := some p.2.bandwidth }
      subnet := some subnet
      bandwidth_mbps := min p.1.bandwidth p.2.bandwidth
      current_utilization := 0 })

/-- Link-creation phase of `_build_connections`: for every subnet group with
more than one member, run `_add_link` (a dict assignment, which overwrites
an existing id) over every unordered member pair. -/
def build_subnet_links (gs : SubnetGroups) : Links :=
  gs.foldl
    (fun links g =>
      if 1 < g.2.length then
        (pairsOf g.2).foldl
          (fun links p =>
            insertA links (subnetLinkEntry g.1 p).1 (subnetLinkEntry g.1 p).2)
          links
      else links)
    []

/-- The entries a group would contribute if none of its link ids collided;
used to state the counting property of `build_subnet_links`. -/
def groupEntries (g : String × List SubnetMember) : List (String × Link) :=
  if 1 < g.2.length then (pairsOf g.2).map (subnetLinkEntry g.1) else []

/-- All link ids generated by the pair loops, across all groups in order. -/
def linkIdsOf (gs : SubnetGroups) : List String :=
  gs.flatMap (fun g => (groupEntries g).map Prod.fst)

/-- `_shares_vlan_segment`: the candidate's per-interface VLAN ids (Python
truthiness drops a VLAN of 0) intersected with the switch's declared VLAN id
list (which may contain `None`). -/
def shares_vlan_segment (cfg : Device) (switch_vlans : List (Option Nat)) :
    Bool :=
  let device_vlans := cfg.interfaces.filterMap (fun i =>
    match i.vlan with
    | some v => if v ≠ 0 then some v else none
    | none => none)
  device_vlans.any (fun v => switch_vlans.contains (some v))

/-- First endpoints of all stored links:
`[link['device1']['device_id'] for link in self.links.values()]`. -/
def device1Ids (links : Links) : List String :=
  links.map (fun kl => kl.2.device1.device_id)

/-- The management-link record written by `_add_switch_link`: fixed 1000
Mbps and no subnet key. -/
def swLinkEntry (sid did : String) : Link :=
  { device1 := { device_id := sid, interface := "mgmt" }
    device2 := { device_id := did, interface := "mgmt" }
    subnet := none
    bandwidth_mbps := 1000
    current_utilization := 0 }

/-- `_add_switch_link`: insert a fixed 1000 Mbps management link without a
subnet tag, only when neither ordering of the id pair is already a key. -/
def add_switch_link (links : Links) (sid did : String) : Links :=
  if (links.lookup (sid ++ "-" ++ did)).isNone ∧
      (links.lookup (did ++ "-" ++ sid)).isNone then
    insertA links (sid ++ "-" ++ did) (swLinkEntry sid did)
  else links

/-- Python `s[-1]`, raising `IndexError` on the empty string. -/
def lastCharE (s : String) : Except String Char :=
  match s.data.getLast? with
  | some c => .ok c
  | none => .error "string index out of range"

/-- The condition under which the switch-attachment loop body links the
switch `sid` to the candidate `oid`: strategy 1 is a VLAN overlap; strategy
2 fires only when strategy 1 failed, the candidate is a router, and the two
ids share their trailing character. -/
def strategyOk (sid : String) (svlans : List (Option Nat)) (oid : String)
    (ocfg : Device) : Prop :=
  shares_vlan_segment ocfg svlans = true ∨
    (shares_vlan_segment ocfg svlans = false ∧
      ocfg.device_type = some "router" ∧
      ∃ c, lastCharE sid = .ok c ∧ lastCharE oid = .ok c)

/-- Body of the inner loop of `_connect_switches_to_segments` for one
candidate device: the guard skips the switch itself and skips everything
once the switch id occurs as `device1` of any stored link; then strategy 1
(VLAN overlap) is tried, else strategy 2 (router with matching trailing
character). -/
def stepSwitchOther (sid : String) (switch_vlans : List (Option Nat))
    (links : Links) (other : String × Device) : Except String Links :=
  if other.1 ≠ sid ∧ ¬ sid ∈ device1Ids links then
    if shares_vlan_segment other.2 switch_vlans then
      .ok (add_switch_link links sid other.1)
    else if other.2.device_type = some "router" then
      match lastCharE sid, lastCharE other.1 with
      | .ok sc, .ok rc =>
          if sc = rc then .ok (add_switch_link links sid other.1) else .ok links
      | .error e, _ => .error e
      | _, .error e => .error e
    else .ok links
  else .ok links

/-- Inner loop of `_connect_switches_to_segments` over all devices. -/
def runOthers (sid : String) (switch_vlans : List (Option Nat))
    (links : Links) : List (String × Device) → Except String Links
  | [] => .ok links
  | o :: rest =>
      match stepSwitchOther sid switch_vlans links o with
      | .error e => .error e
      | .ok links2 => runOthers sid switch_vlans links2 rest

/-- Outer loop of `_connect_switches_to_segments` over the switches. -/
def runSwitches (devices : List (String × Device)) (links : Links) :
    List (String × Device) → Except String Links
  | [] => .ok links
  | (sid, scfg) :: rest =>
      match runOthers sid (scfg.vlans.map (fun v => v.id)) links devices with
      | .error e => .error e
      | .ok links2 => runSwitches devices links2 rest

/-- `_connect_switches_to_segments`: every device whose `device_type` is
`"switch"` is attached to candidates drawn from the full device table. -/
def connect_switches_to_segments (devices : List (String × Device))
    (links : Links) : Except String Links :=
  runSwitches devices links
    (devices.filter (fun dc => dc.2.device_type = some "switch"))

/-- `_build_connections`: subnet grouping, pairwise subnet links, then the
switch-attachment pass.  Only the link table is tracked; the networkx edge
mirror adds no information for the stated properties. -/
def build_connections (devices : List (String × Device)) :
    Except String Links := do
  let gs ← groupBySubnet devices
  connect_switches_to_segments devices (build_subnet_links gs)

/-! ### Undirected graph algorithms (embedding of the networkx calls) -/

/-- One expansion pass: add to `acc` every vertex joined by an edge to a
vertex already in `acc` (edges are undirected). -/
def expandOnce (E : List (String × String)) (acc : List String) :
    List String :=
  E.foldl
    (fun acc e =>
      let acc := if e.1 ∈ acc ∧ ¬ e.2 ∈ acc then acc ++ [e.2] else acc
      if e.2 ∈ acc ∧ ¬ e.1 ∈ acc then acc ++ [e.1] else acc)
    acc

/-- Iterated expansion. -/
def reachList (E : List (String × String)) : Nat → List String → List String
  | 0, acc => acc
  | n + 1, acc => reachList E n (expandOnce E acc)

/-- `nx.has_path` over the undirected edge list: `v` is reachable from `u`.
`E.length + 1` expansion passes saturate, since any simple path uses each
edge at most once. -/
def hasPath (E : List (String × String)) (u v : String) : Bool :=
  decide (v ∈ reachList E (E.length + 1) [u])

/-- Lexicographic order on character code lists (an executable string order
used to orient undirected edges and pick cycle representatives). -/
def lexLe : List Nat → List Nat → Bool
  | [], _ => true
  | _ :: _, [] => false
  | x :: xs, y :: ys =>
      if x < y then true else if x = y then lexLe xs ys else false

/-- Executable lexicographic comparison of two strings. -/
def strLeB (a b : String) : Bool :=
  lexLe (a.data.map Char.toNat) (b.data.map Char.toNat)

/-- Orient an undirected edge canonically so duplicates collapse the way
`nx.Graph.add_edge` collapses them. -/
def normEdge (e : String × String) : String × String :=
  if strLeB e.1 e.2 then e else (e.2, e.1)

/-- The edge set of the networkx graph built from an edge list. -/
def dedupEdges (E : List (String × String)) : List (String × String) :=
  (E.map normEdge).dedup

/-- Drop every edge incident to `v`. -/
def removeVertex (E : List (String × String)) (v : String) :
    List (String × String) :=
  E.filter (fun e => e.1 ≠ v ∧ e.2 ≠ v)

/-- `nx.articulation_points` membership: some two remaining vertices are
connected in the graph but disconnected once `v` and its edges are removed. -/
def isArticulationPoint (V : List String) (E : List (String × String))
    (v : String) : Bool :=
  (V.filter (fun u => u ≠ v)).any (fun u =>
    (V.filter (fun w => w ≠ v)).any (fun w =>
      hasPath E u w ∧ ¬ hasPath (removeVertex E v) u w))

/-- `nx.bridges` membership: removing the edge disconnects its endpoints.
Intended for edges of an already deduplicated edge list. -/
def isBridge (E : List (String × String)) (e : String × String) : Bool :=
  ¬ hasPath (E.filter (fun e2 => e2 ≠ e)) e.1 e.2

/-- The `(device1, device2)` endpoint pairs of all links of a topology. -/
def linkEdges (tp : Topology) : List (String × String) :=
  tp.links.map (fun kl => (kl.2.device1.device_id, kl.2.device2.device_id))

/-! ### Validator rules -/

/-- An entry of an ip-usage bucket in `check_ip_conflicts`:
`{'device', 'interface', 'vlan'}`. -/
structure ConflictMember where
  device : String
  interface : String
  vlan : Option Nat
deriving DecidableEq

/-- The structured issues emitted by the modelled rules.  Each constructor
carries the rule-specific context of the corresponding Python issue dict. -/
inductive ValIssue where
  | ipConflict (ip : String) (vlan : Option Nat) (members : List ConflictMember)
  | loop (devices : List String)
  | stpMissing (device : String)
  | endpointNoPath (endpoint : String)
  | dhcpMissing (subnet : String)
  | artPoint (device : String) (device_type : String)
  | bridgeSpof (device1 device2 : String)
deriving DecidableEq

/-- The `severity` field the Python code stores in each issue dict, as a
function of the issue's construction site: ip conflicts and disconnected
endpoints are critical, an articulation point is critical exactly for a
router, everything else is a warning. -/
def ValIssue.severity : ValIssue → String
  | .ipConflict _ _ _ => "critical"
  | .loop _ => "warning"
  | .stpMissing _ => "warning"
  | .endpointNoPath _ => "critical"
  | .dhcpMissing _ => "warning"
  | .artPoint _ t => if t = "router" then "critical" else "warning"
  | .bridgeSpof _ _ => "warning"

/-- The per-rule result dict: `status`, `issues`, `suggestions`. -/
structure RuleResult where
  status : String
  issues : List ValIssue := []
  suggestions : List String := []
deriving DecidableEq

/-- The per-interface step of `check_ip_conflicts`: an interface with an ip
address is appended to the bucket of its `(ip_address, vlan)` key. -/
def ipUsageInterface (did : String)
    (usage : List ((String × Option Nat) × List ConflictMember))
    (itf : Interface) : List ((String × Option Nat) × List ConflictMember) :=
  match itf.ip_address with
  | some ip =>
      appendAL usage (ip, itf.vlan)
        { device := did, interface := itf.name, vlan := itf.vlan }
  | none => usage

/-- The per-device step of `check_ip_conflicts`. -/
def ipUsageDevice (usage : List ((String × Option Nat) × List ConflictMember))
    (dc : String × Device) :
    List ((String × Option Nat) × List ConflictMember) :=
  dc.2.interfaces.foldl (ipUsageInterface dc.1) usage

/-- The `(ip_address, vlan)` usage buckets of `check_ip_conflicts`, with the
missing-vlan default (`'default'`) modelled as `none`. -/
def ip_usage (tp : Topology) :
    List ((String × Option Nat) × List ConflictMember) :=
  tp.devices.foldl ipUsageDevice []

/-- Render the vlan part of a conflict suggestion the way the f-string does
(`'default'` when the interface had no vlan). -/
def vlanText : Option Nat → String
  | some v => toString v
  | none => "default"

/-- `NetworkValidator.check_ip_conflicts`. -/
def check_ip_conflicts (tp : Topology) : RuleResult :=
  let conflicts := (ip_usage tp).filter (fun kg => 1 < kg.2.length)
  { status := if conflicts ≠ [] then "fail" else "pass"
    issues := conflicts.map (fun kg => ValIssue.ipConflict kg.1.1 kg.1.2 kg.2)
    suggestions := conflicts.map (fun kg =>
      "Resolve IP conflict for " ++ kg.1.1 ++ " in VLAN " ++ vlanText kg.1.2) }

/-- Effectful map over `Except`, stopping at the first raise — the shape of
a Python `for` loop that indexes dict keys directly. -/
def mapME {α β : Type} (f : α → Except String β) :
    List α → Except String (List β)
  | [] => .ok []
  | x :: xs =>
      match f x with
      | .error e => .error e
      | .ok y =>
          match mapME f xs with
          | .error e => .error e
          | .ok ys => .ok (y :: ys)

/-- The id/type pair of a device whose `device_type` key is present. -/
def typedOf (dc : String × Device) : String × String :=
  (dc.1, dc.2.device_type.getD "")

/-- Pair every device id with its `device_type`, raising (`KeyError`) on the
first device whose record lacks the key — the direct-indexing pattern
`device_config['device_type']` used by several rules. -/
def typedDevices (tp : Topology) : Except String (List (String × String)) :=
  mapME (fun dc =>
    match dc.2.device_type with
    | some t => .ok (dc.1, t)
    | none => .error "device_type") tp.devices

/-- `NetworkValidator.check_missing_components`: flag every endpoint with no
path to any router as critical; when no router exists at all, add a DHCP
warning per distinct link subnet. -/
def check_missing_components (tp : Topology) : Except String RuleResult := do
  let typed ← typedDevices tp
  let routers := (typed.filter (fun dt => dt.2 = "router")).map Prod.fst
  let endpoints := (typed.filter (fun dt => dt.2 = "endpoint")).map Prod.fst
  let edges := linkEdges tp
  let noPathIssues := endpoints.filterMap (fun e =>
    if routers.any (fun r => hasPath edges e r) then none
    else some (ValIssue.endpointNoPath e))
  let subnets := (tp.links.filterMap (fun kl => kl.2.subnet)).dedup
  let dhcpIssues :=
    if routers.length = 0 then subnets.map ValIssue.dhcpMissing else []
  let missing := noPathIssues ++ dhcpIssues
  .ok
    { status :=
        if missing.any (fun i => i.severity = "critical") then "fail"
        else if missing ≠ [] then "warning" else "pass"
      issues := missing
      suggestions :=
        ["Ensure all endpoints have connectivity to network infrastructure"] }

/-- Directed-edge test of the digraph obtained from an undirected edge list
(`nx.DiGraph(graph)` keeps both directions of every undirected edge). -/
def isDirectedEdge (E : List (String × String)) (a b : String) : Bool :=
  E.any (fun e => (e.1 = a ∧ e.2 = b) ∨ (e.1 = b ∧ e.2 = a))

/-- A simple directed cycle: nonempty, duplicate-free, and every consecutive
pair — including the wrap-around — is a directed edge. -/
def isSimpleCycle (E : List (String × String)) (l : List String) : Bool :=
  match l with
  | [] => false
  | v0 :: _ =>
      decide l.Nodup ∧
        (l.zip (l.drop 1 ++ [v0])).all (fun p => isDirectedEdge E p.1 p.2)

/-- Canonical-representative filter: keep the rotation of a cycle whose head
is its least vertex, so each elementary cycle is listed once, the way
`nx.simple_cycles` lists it once. -/
def headIsMin : List String → Bool
  | [] => false
  | v :: rest => rest.all (fun u => strLeB v u)

/-- All ways of inserting `x` into a list. -/
def insertsOf {α : Type} (x : α) : List α → List (List α)
  | [] => [[x]]
  | y :: ys => (x :: y :: ys) :: (insertsOf x ys).map (fun l => y :: l)

/-- All permutations of a list (structural implementation). -/
def permsOf {α : Type} : List α → List (List α)
  | [] => [[]]
  | x :: xs => (permsOf xs).flatMap (insertsOf x)

/-- Embedding of `list(nx.simple_cycles(nx.DiGraph(graph)))`: every
elementary directed cycle of the doubled graph, one representative per
rotation class. -/
def simpleCyclesDir (nodes : List String) (E : List (String × String)) :
    List (List String) :=
  (nodes.sublists.flatMap permsOf).filter
    (fun l => isSimpleCycle E l ∧ headIsMin l)

/-- Substring test via `splitOn`: `sub` occurs in `s` iff splitting on it
yields more than one piece. -/
def containsSub (s sub : String) : Bool := 1 < (s.splitOn sub).length

/-- `'spanning-tree' in str(device_config).lower()`: some string stored in
the record (or the device name) mentions spanning-tree. -/
def mentions_spanning_tree (did : String) (cfg : Device) : Bool :=
  let strs :=
    [did] ++
      cfg.interfaces.flatMap (fun i =>
        [i.name] ++ i.ip_address.toList ++ i.subnet_mask.toList ++ i.status.toList) ++
      cfg.vlans.filterMap (fun v => v.name) ++
      cfg.routing_protocols.filterMap (fun p => p.protocol)
  strs.any (fun s => containsSub s.toLower "spanning-tree")

/-- `NetworkValidator.check_network_loops`: cycles of length greater than 2
in the doubled router/switch graph, plus a warning per switch without a
spanning-tree marker. -/
def check_network_loops (tp : Topology) : Except String RuleResult := do
  let typed ← typedDevices tp
  let nodes := (typed.filter (fun dt => dt.2 = "router" ∨ dt.2 = "switch")).map Prod.fst
  let gedges := dedupEdges
    ((linkEdges tp).filter (fun e => e.1 ∈ nodes ∧ e.2 ∈ nodes))
  let loops := (simpleCyclesDir nodes gedges).filterMap (fun c =>
    if 2 < c.length then some (ValIssue.loop c) else none)
  let stpIssues := tp.devices.filterMap (fun dc =>
    if dc.2.device_type = some "switch" ∧ ¬ mentions_spanning_tree dc.1 dc.2 then
      some (ValIssue.stpMissing dc.1)
    else none)
  let allIssues := loops ++ stpIssues
  .ok
    { status := if allIssues ≠ [] then "warning" else "pass"
      issues := allIssues
      suggestions :=
        ["Enable and configure spanning-tree protocol on all switches",
         "Consider implementing rapid spanning-tree (RSTP) for faster convergence"] }

/-- The node list of the redundancy graph: every device id plus every link
endpoint (`add_edge` silently adds missing nodes). -/
def redundancyNodes (tp : Topology) : List String :=
  (tp.devices.map Prod.fst ++ (linkEdges tp).flatMap (fun e => [e.1, e.2])).dedup

/-- `NetworkValidator.check_redundancy`: articulation points (critical for
routers, else warning) and bridges (warning) of the device graph; the
severity lookup indexes `topology_data['devices'][node]['device_type']`
directly, hence raises for a node without a typed device record. -/
def check_redundancy (tp : Topology) : Except String RuleResult := do
  let V := redundancyNodes tp
  let E := dedupEdges (linkEdges tp)
  let arts := V.filter (fun v => isArticulationPoint V E v)
  let artIssues ← mapME (fun v =>
    match (tp.devices.lookup v).bind (fun d => d.device_type) with
    | some t => .ok (ValIssue.artPoint v t)
    | none => .error "device_type") arts
  let bridges := E.filter (fun e => isBridge E e)
  let issues := artIssues ++ bridges.map (fun e => ValIssue.bridgeSpof e.1 e.2)
  .ok
    { status :=
        if issues.any (fun i => i.severity = "critical") then "fail"
        else if issues ≠ [] then "warning" else "pass"
      issues := issues
      suggestions :=
        ["Implement redundant paths and eliminate single points of failure"] }

/-! ### Validation engine -/

/-- A registered rule: the engine hands every rule the topology and hands
the traffic summary only to the capacity rule. -/
abbrev Rule := Topology → Option Traffic → Except String RuleResult

/-- One entry of `detailed_results`: either a rule's result dict or the
`{'status': 'error', 'error': str(e)}` record written by the handler. -/
inductive DetailedEntry where
  | entry (r : RuleResult)
  | error (msg : String)
deriving DecidableEq

/-- The accumulated `validation_results` dict. -/
structure ValidationResults where
  overall_score : ℚ
  total_checks : Nat
  passed_checks : Nat
  failed_checks : Nat
  warnings : Nat
  critical_issues : List ValIssue
  warnings_list : List ValIssue
  optimization_suggestions : List String
  detailed_results : List (String × DetailedEntry)
deriving DecidableEq

/-- Dispatch of one rule: the traffic summary is passed only to the rule
registered as `capacity_validation`, and only when one was supplied. -/
def runRule (name : String) (f : Rule) (tp : Topology) (tr : Option Traffic) :
    Except String RuleResult :=
  if name = "capacity_validation" ∧ tr.isSome then f tp tr else f tp none

/-- The per-rule body of the engine loop: record the outcome (an exception
becomes an error-status entry), bump the matching counter, and concatenate
issues and suggestions.  The if/elif chain of the source is flattened into
per-field conditions; this is equivalent because a result carries exactly
one status string, so at most one of the three conditions holds. -/
def applyRuleResult (vr : ValidationResults) (name : String) :
    Except String RuleResult → ValidationResults
  | .error e =>
      { vr with detailed_results := insertA vr.detailed_results name (.error e) }
  | .ok result =>
      { vr with
        detailed_results := insertA vr.detailed_results name (.entry result)
        passed_checks :=
          vr.passed_checks + (if result.status = "pass" then 1 else 0)
        failed_checks :=
          vr.failed_checks + (if result.status = "fail" then 1 else 0)
        warnings :=
          vr.warnings + (if result.status = "warning" then 1 else 0)
        critical_issues :=
          vr.critical_issues ++ (if result.status = "fail" then result.issues else [])
        warnings_list :=
          vr.warnings_list ++ (if result.status = "warning" then result.issues else [])
        optimization_suggestions :=
          vr.optimization_suggestions ++ result.suggestions }

/-- The engine loop over the registered rules. -/
def runRules (tp : Topology) (tr : Option Traffic) (vr : ValidationResults) :
    List (String × Rule) → ValidationResults
  | [] => vr
  | (name, f) :: rest =>
      runRules tp tr (applyRuleResult vr name (runRule name f tp tr)) rest

/-- The freshly initialised `validation_results` dict. -/
def initialResults (rules : List (String × Rule)) : ValidationResults :=
  { overall_score := 0
    total_checks := rules.length
    passed_checks := 0
    failed_checks := 0
    warnings := 0
    critical_issues := []
    warnings_list := []
    optimization_suggestions := []
    detailed_results := [] }

/-- `NetworkValidator.validate_network_configuration`: run every rule, then
compute the weighted score over the pass/fail/warning counts when at least
one rule ended in one of those statuses. -/
def validate_network_configuration (rules : List (String × Rule))
    (tp : Topology) (tr : Option Traffic) : ValidationResults :=
  let vr := runRules tp tr (initialResults rules) rules
  let total := vr.passed_checks + vr.failed_checks + vr.warnings
  if 0 < total then
    { vr with overall_score :=
        ((vr.passed_checks : ℚ) * 100 + (vr.warnings : ℚ) * 50) /
          ((total : ℚ) * 100) * 100 }
  else vr

/-- Whether a rule's evaluation on the given inputs ends in status `s`
(an exception matches no status). -/
def evalStatusIs (tp : Topology) (tr : Option Traffic) (s : String)
    (nf : String × Rule) : Bool :=
  match runRule nf.1 nf.2 tp tr with
  | .ok r => r.status = s
  | .error _ => false

/-- Number of registered rules whose evaluation ends in status `s`. -/
def countEval (rules : List (String × Rule)) (tp : Topology)
    (tr : Option Traffic) (s : String) : Nat :=
  (rules.filter (evalStatusIs tp tr s)).length

/-- The `detailed_results` entry written for a rule outcome: the result
dict, or the error record built in the exception handler. -/
def entryOfOutcome : Except String RuleResult → DetailedEntry
  | .ok r => .entry r
  | .error e => .error e

/-- The `detailed_results` entry a rule's evaluation produces. -/
def entryOf (tp : Topology) (tr : Option Traffic) (nf : String × Rule) :
    DetailedEntry :=
  entryOfOutcome (runRule nf.1 nf.2 tp tr)

/-! ### Concrete instances used by witnesses and counterexamples -/

/-- The empty topology. -/
def tpEmpty : Topology := {}

/-- A rule that always succeeds with the given status. -/
def constRule (s : String) : Rule := fun _ _ => .ok { status := s }

/-- A rule that always raises. -/
def ruleBoom : Rule := fun _ _ => .error "boom"

/-- Ten rules: six pass, two warn, two fail (the score example of the
specification). -/
def rules622 : List (String × Rule) :=
  [("r1", constRule "pass"), ("r2", constRule "pass"), ("r3", constRule "pass"),
   ("r4", constRule "pass"), ("r5", constRule "pass"), ("r6", constRule "pass"),
   ("r7", constRule "warning"), ("r8", constRule "warning"),
   ("r9", constRule "fail"), ("r10", constRule "fail")]

/-- A rule table in which the middle rule raises. -/
def rulesC4 : List (String × Rule) :=
  [("ok_rule", constRule "pass"), ("boom_rule", ruleBoom),
   ("other_rule", constRule "warning")]

/-- Device A with two interfaces on one subnet (C2 counterexample input). -/
def devA : Device :=
  { device_type := some "endpoint"
    interfaces :=
      [{ name := "eth0", ip_address := some "10.0.0.1"
         subnet_mask := some "255.255.255.0" },
       { name := "eth1", ip_address := some "10.0.0.2"
         subnet_mask := some "255.255.255.0" }] }

/-- Device B with one interface on the same subnet as `devA`. -/
def devB : Device :=
  { device_type := some "endpoint"
    interfaces :=
      [{ name := "eth0", ip_address := some "10.0.0.3"
         subnet_mask := some "255.255.255.0" }] }

/-- C2 counterexample device set: one subnet group of size 3 in which a
device id repeats. -/
def devicesC2 : List (String × Device) := [("A", devA), ("B", devB)]

/-- Four devices over two disjoint subnets (C2 witness input). -/
def devicesC2ok : List (String × Device) :=
  [("H1", { device_type := some "endpoint"
            interfaces := [{ name := "eth0", ip_address := some "10.0.1.1"
                             subnet_mask := some "255.255.255.0" }] }),
   ("H2", { device_type := some "endpoint"
            interfaces := [{ name := "eth0", ip_address := some "10.0.1.2"
                             subnet_mask := some "255.255.255.0" }] }),
   ("H3", { device_type := some "endpoint"
            interfaces := [{ name := "eth0", ip_address := some "10.0.2.1"
                             subnet_mask := some "255.255.255.0" }] }),
   ("H4", { device_type := some "endpoint"
            interfaces := [{ name := "eth0", ip_address := some "10.0.2.2"
                             subnet_mask := some "255.255.255.0" }] })]

/-- A switch declaring VLAN 10. -/
def swS1 : Device :=
  { device_type := some "switch"
    vlans := [{ id := some 10, name := some "V10" }] }

/-- An endpoint with one interface on VLAN 10 and no addressing. -/
def epVlan10 : Device :=
  { device_type := some "endpoint"
    interfaces := [{ name := "eth0", vlan := some 10 }] }

/-- C3 counterexample device set: one switch and two VLAN-sharing
endpoints, none of them linked beforehand. -/
def devicesC3 : List (String × Device) :=
  [("S1", swS1), ("E1", epVlan10), ("E2", epVlan10)]

/-- A device record whose interface carries a malformed ip address (C9
counterexample input). -/
def devBad : Device :=
  { interfaces :=
      [{ name := "eth0", ip_address := some "abc"
         subnet_mask := some "255.255.255.0" }] }

/-- C9 counterexample device set. -/
def devicesC9 : List (String × Device) := [("Bad", devBad)]

/-- A well-formed addressless device set (C9 witness input). -/
def devicesC9ok : List (String × Device) :=
  [("S2", swS1), ("E3", epVlan10)]

/-- An interface carrying no bandwidth field. -/
def itfNoBw : Interface := { name := "eth9" }

/-- Chain topology A - B - C (C6 witness input): B is the cut vertex and
both links are bridges. -/
def chainTp : Topology :=
  { devices :=
      [("A", { device_type := some "endpoint" }),
       ("B", { device_type := some "switch" }),
       ("C", { device_type := some "endpoint" })]
    links :=
      [("A-B", { device1 := { device_id := "A", interface := "eth0" }
                 device2 := { device_id := "B", interface := "eth0" }
                 bandwidth_mbps := 100 }),
       ("B-C", { device1 := { device_id := "B", interface := "eth1" }
                 device2 := { device_id := "C", interface := "eth0" }
                 bandwidth_mbps := 100 })] }

/-- Triangle of three routers (C8 witness input): the doubled digraph has a
3-cycle. -/
def triTp : Topology :=
  { devices :=
      [("R1", { device_type := some "router" }),
       ("R2", { device_type := some "router" }),
       ("R3", { device_type := some "router" })]
    links :=
      [("R1-R2", { device1 := { device_id := "R1", interface := "s0" }
                   device2 := { device_id := "R2", interface := "s0" }
                   bandwidth_mbps := 100 }),
       ("R2-R3", { device1 := { device_id := "R2", interface := "s1" }
                   device2 := { device_id := "R3", interface := "s0" }
                   bandwidth_mbps := 100 }),
       ("R1-R3", { device1 := { device_id := "R1", interface := "s1" }
                   device2 := { device_id := "R3", interface := "s1" }
                   bandwidth_mbps := 100 })] }

/-- Two devices carrying the same ip address on the same VLAN (C5 witness
input). -/
def c5Tp : Topology :=
  { devices :=
      [("D1", { device_type := some "endpoint"
                interfaces := [{ name := "eth0", ip_address := some "192.168.1.5"
                                 vlan := some 10 }] }),
       ("D2", { device_type := some "endpoint"
                interfaces := [{ name := "eth0", ip_address := some "192.168.1.5"
                                 vlan := some 10 }] })] }

/-- A lone endpoint with zero links and no router anywhere (C7 witness
input). -/
def c7Tp : Topology :=
  { devices := [("PC1", { device_type := some "endpoint" })], links := [] }

/-! ### Association-list lemmas -/

theorem lookup_insertA_self {β : Type} (l : List (String × β)) (k : String)
    (v : β) : (insertA l k v).lookup k = some v := by
  induction l with
  | nil => simp [insertA, List.lookup]
  | cons kv rest ih =>
      obtain ⟨k2, v2⟩ := kv
      by_cases h : k2 = k
      · subst h; simp [insertA, List.lookup]
      · have hb : (k == k2) = false := beq_eq_false_iff_ne.mpr (Ne.symm h)
        simp [insertA, h, List.lookup, hb, ih]

theorem lookup_insertA_ne {β : Type} (l : List (String × β)) (k k2 : String)
    (v : β) (h : k2 ≠ k) : (insertA l k v).lookup k2 = l.lookup k2 := by
  induction l with
  | nil => simp [insertA, List.lookup, beq_eq_false_iff_ne.mpr h]
  | cons kv rest ih =>
      obtain ⟨k3, v3⟩ := kv
      by_cases h3 : k3 = k
      · subst h3
        simp [insertA, List.lookup, beq_eq_false_iff_ne.mpr h]
      · simp only [insertA, if_neg h3, List.lookup]
        cases hbeq : k2 == k3 <;> simp [ih]

theorem not_mem_of_lookup_none {β : Type} (l : List (String × β))
    (k : String) (h : l.lookup k = none) : ∀ v, ¬ (k, v) ∈ l := by
  induction l with
  | nil => simp
  | cons kv rest ih =>
      obtain ⟨k2, v2⟩ := kv
      intro v hv
      by_cases h2 : k2 = k
      · subst h2; simp [List.lookup] at h
      · have hb : (k == k2) = false := beq_eq_false_iff_ne.mpr (Ne.symm h2)
        simp only [List.lookup, hb] at h
        rcases List.mem_cons.mp hv with he | hm
        · exact h2 (congrArg Prod.fst he).symm
        · exact ih h v hm

theorem lookup_none_of_not_mem_fst {β : Type} (l : List (String × β))
    (k : String) (h : ¬ k ∈ l.map Prod.fst) : l.lookup k = none := by
  induction l with
  | nil => simp [List.lookup]
  | cons kv rest ih =>
      obtain ⟨k2, v2⟩ := kv
      simp only [List.map_cons, List.mem_cons, not_or] at h
      have hb : (k == k2) = false := beq_eq_false_iff_ne.mpr h.1
      simp only [List.lookup, hb]
      exact ih h.2

theorem mem_fst_of_lookup_none {β : Type} (l : List (String × β))
    (k : String) (h : l.lookup k = none) : ¬ k ∈ l.map Prod.fst := by
  intro hk
  rcases List.mem_map.mp hk with ⟨kv, hkv, hfst⟩
  refine not_mem_of_lookup_none l k h kv.2 ?_
  rw [← hfst, Prod.mk.eta]
  exact hkv

theorem lookup_append_none {β : Type} (l1 l2 : List (String × β)) (k : String)
    (h : l1.lookup k = none) : (l1 ++ l2).lookup k = l2.lookup k := by
  induction l1 with
  | nil => simp
  | cons kv rest ih =>
      obtain ⟨k2, v2⟩ := kv
      by_cases h2 : k2 = k
      · subst h2; simp [List.lookup] at h
      · have hb : (k == k2) = false := beq_eq_false_iff_ne.mpr (Ne.symm h2)
        simp only [List.lookup, hb] at h
        simp only [List.cons_append, List.lookup, hb]
        exact ih h

theorem insertA_eq_append {β : Type} (l : List (String × β)) (k : String)
    (v : β) (h : l.lookup k = none) : insertA l k v = l ++ [(k, v)] := by
  induction l with
  | nil => simp [insertA]
  | cons kv rest ih =>
      obtain ⟨k2, v2⟩ := kv
      by_cases h2 : k2 = k
      · subst h2; simp [List.lookup] at h
      · have hb : (k == k2) = false := beq_eq_false_iff_ne.mpr (Ne.symm h2)
        simp only [List.lookup, hb] at h
        simp [insertA, h2, ih h]

/-- `mapME` succeeds pointwise. -/
theorem mapME_ok {α β : Type} (f : α → Except String β) (g : α → β) :
    ∀ l : List α, (∀ a ∈ l, f a = .ok (g a)) → mapME f l = .ok (l.map g) := by
  intro l
  induction l with
  | nil => intro _; rfl
  | cons x xs ih =>
      intro h
      have hx := h x (List.mem_cons_self x xs)
      have hxs := ih (fun a ha => h a (List.mem_cons_of_mem x ha))
      simp [mapME, hx, hxs]

/-! ### Claim C8 -/

/-- Claim C8: the loop-detection rule searches the directed multigraph
obtained by doubling every undirected router/switch link and never reports
a cycle of length 2 or less — every loop issue it emits lists strictly more
than two devices, because the rule keeps only cycles of length > 2. -/
theorem loop_issues_length (tp : Topology) (r : RuleResult)
    (h : check_network_loops tp = .ok r) :
    ∀ ds, ValIssue.loop ds ∈ r.issues → 2 < ds.length := by
  intro ds hmem
  unfold check_network_loops at h
  cases htyped : typedDevices tp with
  | error e => rw [htyped] at h; simp [Bind.bind, Except.bind] at h
  | ok typed =>
      rw [htyped] at h
      simp only [Bind.bind, Except.bind, Except.ok.injEq] at h
      subst h
      simp only at hmem
      rcases List.mem_append.mp hmem with hl | hs
      · rcases List.mem_filterMap.mp hl with ⟨c, _, hc⟩
        by_cases hlen : 2 < c.length
        · rw [if_pos hlen] at hc
          injection hc with hc
          injection hc with hc
          subst hc
          exact hlen
        · rw [if_neg hlen] at hc
          simp at hc
      · rcases List.mem_filterMap.mp hs with ⟨dc, _, hc⟩
        by_cases hcond : dc.2.device_type = some "switch" ∧
            ¬ mentions_spanning_tree dc.1 dc.2
        · rw [if_pos hcond] at hc; simp at hc
        · rw [if_neg hcond] at hc; simp at hc

/-- Witness for C8: the router triangle produces a loop issue, and through
`loop_issues_length` it lists more than two devices. -/
theorem loop_issues_length_witness :
    ∃ r, check_network_loops triTp = .ok r ∧
      ∃ ds, ValIssue.loop ds ∈ r.issues ∧ 2 < ds.length := by
  refine ⟨_, rfl, ["R1", "R2", "R3"], ?_, ?_⟩
  · decide
  · exact loop_issues_length triTp _ rfl _ (by decide)

/-! ### Engine lemmas -/

theorem countEval_cons (nf : String × Rule) (rules : List (String × Rule))
    (tp : Topology) (tr : Option Traffic) (s : String) :
    countEval (nf :: rules) tp tr s =
      (if evalStatusIs tp tr s nf then 1 else 0) + countEval rules tp tr s := by
  cases h : evalStatusIs tp tr s nf <;>
    simp [countEval, List.filter_cons, h, Nat.add_comm]

theorem applyRuleResult_detailed (vr : ValidationResults) (name : String)
    (out : Except String RuleResult) :
    (applyRuleResult vr name out).detailed_results =
      insertA vr.detailed_results name (entryOfOutcome out) := by
  cases out <;> rfl

/-- The engine loop adds to each counter exactly the number of remaining
rules whose evaluation ends in the matching status, and never touches the
score. -/
theorem runRules_fields (tp : Topology) (tr : Option Traffic) :
    ∀ (rules : List (String × Rule)) (vr : ValidationResults),
      (runRules tp tr vr rules).passed_checks
          = vr.passed_checks + countEval rules tp tr "pass" ∧
        (runRules tp tr vr rules).failed_checks
          = vr.failed_checks + countEval rules tp tr "fail" ∧
        (runRules tp tr vr rules).warnings
          = vr.warnings + countEval rules tp tr "warning" ∧
        (runRules tp tr vr rules).overall_score = vr.overall_score := by
  intro rules
  induction rules with
  | nil => intro vr; simp [runRules, countEval]
  | cons nf rest ih =>
      intro vr
      obtain ⟨n, f⟩ := nf
      obtain ⟨ihp, ihf, ihw, ihs⟩ := ih (applyRuleResult vr n (runRule n f tp tr))
      simp only [runRules]
      rw [ihp, ihf, ihw, ihs]
      rw [countEval_cons, countEval_cons, countEval_cons]
      cases hout : runRule n f tp tr with
      | error e =>
          simp [applyRuleResult, evalStatusIs, hout, Nat.add_assoc]
      | ok r =>
          simp only [applyRuleResult, evalStatusIs, hout]
          refine ⟨?_, ?_, ?_, ?_⟩
          · by_cases hs : r.status = "pass" <;> simp [hs] <;> omega
          · by_cases hs : r.status = "fail" <;> simp [hs] <;> omega
          · by_cases hs : r.status = "warning" <;> simp [hs] <;> omega
          · trivial

/-- When at least one rule ends in pass, fail or warning, the final score is
the weighted formula over the three counters. -/
theorem validate_score_eq (rules : List (String × Rule)) (tp : Topology)
    (tr : Option Traffic)
    (h : 0 < countEval rules tp tr "pass" + countEval rules tp tr "fail" +
        countEval rules tp tr "warning") :
    (validate_network_configuration rules tp tr).overall_score =
      ((countEval rules tp tr "pass" : ℚ) * 100 +
          (countEval rules tp tr "warning" : ℚ) * 50) /
        (((countEval rules tp tr "pass" : ℚ) + (countEval rules tp tr "fail" : ℚ) +
            (countEval rules tp tr "warning" : ℚ)) * 100) * 100 := by
  obtain ⟨hp, hf, hw, _⟩ := runRules_fields tp tr rules (initialResults rules)
  rw [show (initialResults rules).passed_checks = 0 from rfl, Nat.zero_add] at hp
  rw [show (initialResults rules).failed_checks = 0 from rfl, Nat.zero_add] at hf
  rw [show (initialResults rules).warnings = 0 from rfl, Nat.zero_add] at hw
  have hcond : 0 < (runRules tp tr (initialResults rules) rules).passed_checks +
      (runRules tp tr (initialResults rules) rules).failed_checks +
      (runRules tp tr (initialResults rules) rules).warnings := by
    rw [hp, hf, hw]; exact h
  simp only [validate_network_configuration, if_pos hcond]
  rw [hp, hf, hw]
  push_cast
  ring

/-- When no rule ends in pass, fail or warning, the score keeps its initial
value 0. -/
theorem validate_score_zero (rules : List (String × Rule)) (tp : Topology)
    (tr : Option Traffic)
    (h : countEval rules tp tr "pass" + countEval rules tp tr "fail" +
        countEval rules tp tr "warning" = 0) :
    (validate_network_configuration rules tp tr).overall_score = 0 := by
  obtain ⟨hp, hf, hw, hs⟩ := runRules_fields tp tr rules (initialResults rules)
  rw [show (initialResults rules).passed_checks = 0 from rfl, Nat.zero_add] at hp
  rw [show (initialResults rules).failed_checks = 0 from rfl, Nat.zero_add] at hf
  rw [show (initialResults rules).warnings = 0 from rfl, Nat.zero_add] at hw
  have hcond : ¬ (0 < (runRules tp tr (initialResults rules) rules).passed_checks +
      (runRules tp tr (initialResults rules) rules).failed_checks +
      (runRules tp tr (initialResults rules) rules).warnings) := by
    rw [hp, hf, hw]; omega
  simp only [validate_network_configuration, if_neg hcond]
  rw [hs]
  rfl

/-- The score assignment at the end of the run leaves `detailed_results`
untouched. -/
theorem validate_detailed (rules : List (String × Rule)) (tp : Topology)
    (tr : Option Traffic) :
    (validate_network_configuration rules tp tr).detailed_results =
      (runRules tp tr (initialResults rules) rules).detailed_results := by
  simp only [validate_network_configuration]
  split <;> rfl

theorem runRules_lookup_preserve (tp : Topology) (tr : Option Traffic) :
    ∀ (rules : List (String × Rule)) (vr : ValidationResults) (name : String),
      ¬ name ∈ rules.map Prod.fst →
      (runRules tp tr vr rules).detailed_results.lookup name =
        vr.detailed_results.lookup name := by
  intro rules
  induction rules with
  | nil => intro vr name _; rfl
  | cons nf rest ih =>
      intro vr name h
      obtain ⟨n, f⟩ := nf
      simp only [List.map_cons, List.mem_cons, not_or] at h
      simp only [runRules]
      rw [ih _ _ h.2, applyRuleResult_detailed, lookup_insertA_ne _ _ _ _ h.1]

/-- Each registered rule's entry in `detailed_results` is exactly the record
of its own evaluation, provided rule names do not repeat. -/
theorem runRules_lookup (tp : Topology) (tr : Option Traffic) :
    ∀ (rules : List (String × Rule)) (vr : ValidationResults),
      (rules.map Prod.fst).Nodup → ∀ nf ∈ rules,
      (runRules tp tr vr rules).detailed_results.lookup nf.1 =
        some (entryOf tp tr nf) := by
  intro rules
  induction rules with
  | nil => intro vr _ nf h; simp at h
  | cons nf0 rest ih =>
      intro vr hnd nf hmem
      obtain ⟨n0, f0⟩ := nf0
      simp only [List.map_cons, List.nodup_cons] at hnd
      rcases List.mem_cons.mp hmem with he | hm
      · subst he
        simp only [runRules]
        rw [runRules_lookup_preserve tp tr rest _ _ hnd.1]
        rw [applyRuleResult_detailed, lookup_insertA_self]
        rfl
      · simp only [runRules]
        exact ih _ hnd.2 nf hm

/-! ### Claims C1, C10, C4 -/

/-- Claim C1: in every validation run in which at least one rule returns
status pass, fail, or warning, the overall score equals
(passedCount × 100 + warningCount × 50) / (totalEvaluatedChecks × 100) × 100,
where totalEvaluatedChecks counts the rules ending in pass, fail or warning
(rules ending in an error are excluded from the denominator). -/
theorem score_formula (rules : List (String × Rule)) (tp : Topology)
    (tr : Option Traffic)
    (h : 0 < countEval rules tp tr "pass" + countEval rules tp tr "fail" +
        countEval rules tp tr "warning") :
    (validate_network_configuration rules tp tr).overall_score =
      ((countEval rules tp tr "pass" : ℚ) * 100 +
          (countEval rules tp tr "warning" : ℚ) * 50) /
        (((countEval rules tp tr "pass" : ℚ) + (countEval rules tp tr "fail" : ℚ) +
            (countEval rules tp tr "warning" : ℚ)) * 100) * 100 :=
  validate_score_eq rules tp tr h

/-- Witness for C1: ten rules of which 6 pass, 2 warn and 2 fail give a
score of exactly 70. -/
theorem score_formula_witness :
    0 < countEval rules622 tpEmpty none "pass" +
        countEval rules622 tpEmpty none "fail" +
        countEval rules622 tpEmpty none "warning" ∧
      (validate_network_configuration rules622 tpEmpty none).overall_score = 70 := by
  constructor
  · decide
  · rw [score_formula rules622 tpEmpty none (by decide)]
    norm_num [show countEval rules622 tpEmpty none "pass" = 6 from rfl,
      show countEval rules622 tpEmpty none "fail" = 2 from rfl,
      show countEval rules622 tpEmpty none "warning" = 2 from rfl]

/-- Claim C10: for every rule table, topology and optional traffic summary,
the overall score lies between 0 and 100, and it is exactly 0 when no rule
ends with status pass, fail or warning. -/
theorem score_bounds (rules : List (String × Rule)) (tp : Topology)
    (tr : Option Traffic) :
    (0 ≤ (validate_network_configuration rules tp tr).overall_score ∧
      (validate_network_configuration rules tp tr).overall_score ≤ 100) ∧
    (countEval rules tp tr "pass" + countEval rules tp tr "fail" +
        countEval rules tp tr "warning" = 0 →
      (validate_network_configuration rules tp tr).overall_score = 0) := by
  constructor
  · by_cases h : 0 < countEval rules tp tr "pass" + countEval rules tp tr "fail" +
        countEval rules tp tr "warning"
    · rw [validate_score_eq rules tp tr h]
      have hp : (0 : ℚ) ≤ (countEval rules tp tr "pass" : ℚ) := Nat.cast_nonneg _
      have hf : (0 : ℚ) ≤ (countEval rules tp tr "fail" : ℚ) := Nat.cast_nonneg _
      have hw : (0 : ℚ) ≤ (countEval rules tp tr "warning" : ℚ) := Nat.cast_nonneg _
      have hT : (0 : ℚ) < ((countEval rules tp tr "pass" : ℚ) +
          (countEval rules tp tr "fail" : ℚ) +
          (countEval rules tp tr "warning" : ℚ)) * 100 := by
        have : (0 : ℚ) < ((countEval rules tp tr "pass" +
            countEval rules tp tr "fail" + countEval rules tp tr "warning" : ℕ) : ℚ) := by
          exact_mod_cast h
        push_cast at this
        nlinarith
      constructor
      · positivity
      · have hnum : (countEval rules tp tr "pass" : ℚ) * 100 +
            (countEval rules tp tr "warning" : ℚ) * 50 ≤
            ((countEval rules tp tr "pass" : ℚ) +
              (countEval rules tp tr "fail" : ℚ) +
              (countEval rules tp tr "warning" : ℚ)) * 100 := by nlinarith
        have hdiv : ((countEval rules tp tr "pass" : ℚ) * 100 +
            (countEval rules tp tr "warning" : ℚ) * 50) /
            (((countEval rules tp tr "pass" : ℚ) +
              (countEval rules tp tr "fail" : ℚ) +
              (countEval rules tp tr "warning" : ℚ)) * 100) ≤ 1 :=
          (div_le_one hT).mpr hnum
        calc ((countEval rules tp tr "pass" : ℚ) * 100 +
              (countEval rules tp tr "warning" : ℚ) * 50) /
              (((countEval rules tp tr "pass" : ℚ) +
                (countEval rules tp tr "fail" : ℚ) +
                (countEval rules tp tr "warning" : ℚ)) * 100) * 100
            ≤ 1 * 100 := by nlinarith
          _ = 100 := by norm_num
    · have h0 : countEval rules tp tr "pass" + countEval rules tp tr "fail" +
          countEval rules tp tr "warning" = 0 := by omega
      rw [validate_score_zero rules tp tr h0]
      norm_num
  · intro h0
    exact validate_score_zero rules tp tr h0

/-- Witness for C10: a run in which every rule raises has score 0 (and the
bounds hold there). -/
theorem score_bounds_witness :
    countEval [("a_rule", ruleBoom)] tpEmpty none "pass" +
        countEval [("a_rule", ruleBoom)] tpEmpty none "fail" +
        countEval [("a_rule", ruleBoom)] tpEmpty none "warning" = 0 ∧
      (validate_network_configuration [("a_rule", ruleBoom)] tpEmpty none).overall_score = 0 :=
  ⟨by decide, (score_bounds [("a_rule", ruleBoom)] tpEmpty none).2 (by decide)⟩

/-- Claim C4: the engine never aborts a run on a rule failure — every
registered rule's entry in `detailed_results` is present and equals the
record of that rule's own evaluation: an error entry exactly when the rule
raised, and the rule's own result otherwise, unaffected by other rules. -/
theorem rule_error_isolated (rules : List (String × Rule)) (tp : Topology)
    (tr : Option Traffic) (hnd : (rules.map Prod.fst).Nodup) :
    ∀ nf ∈ rules,
      (validate_network_configuration rules tp tr).detailed_results.lookup nf.1 =
        some (entryOf tp tr nf) := by
  intro nf hmem
  rw [validate_detailed]
  exact runRules_lookup tp tr rules _ hnd nf hmem

/-- Witness for C4: with a raising rule between two ordinary ones, the
raising rule's entry is the error record and the other rules' results are
unaffected. -/
theorem rule_error_isolated_witness :
    (validate_network_configuration rulesC4 tpEmpty none).detailed_results.lookup
        "boom_rule" = some (DetailedEntry.error "boom") ∧
      (validate_network_configuration rulesC4 tpEmpty none).detailed_results.lookup
        "other_rule" = some (DetailedEntry.entry { status := "warning" }) := by
  constructor
  · exact rule_error_isolated rulesC4 tpEmpty none (by decide)
      ("boom_rule", ruleBoom) (by simp [rulesC4])
  · exact rule_error_isolated rulesC4 tpEmpty none (by decide)
      ("other_rule", constRule "warning") (by simp [rulesC4])

/-! ### Claim C5 -/

theorem appendAL_keys {κ β : Type} [DecidableEq κ] (l : List (κ × List β))
    (k : κ) (v : β) :
    (appendAL l k v).map Prod.fst =
      if k ∈ l.map Prod.fst then l.map Prod.fst
      else l.map Prod.fst ++ [k] := by
  induction l with
  | nil => simp [appendAL]
  | cons kv rest ih =>
      obtain ⟨k2, vs⟩ := kv
      by_cases h : k2 = k
      · subst h; simp [appendAL]
      · by_cases hm : k ∈ rest.map Prod.fst <;>
          simp [appendAL, h, Ne.symm h, ih, hm]

theorem appendAL_keys_nodup {κ β : Type} [DecidableEq κ]
    (l : List (κ × List β)) (k : κ) (v : β)
    (h : (l.map Prod.fst).Nodup) : ((appendAL l k v).map Prod.fst).Nodup := by
  rw [appendAL_keys]
  by_cases hm : k ∈ l.map Prod.fst
  · simpa [hm] using h
  · simp [hm, List.nodup_append, h]

theorem ipUsageInterface_keys_nodup (did : String)
    (usage : List ((String × Option Nat) × List ConflictMember))
    (itf : Interface) (h : (usage.map Prod.fst).Nodup) :
    (((ipUsageInterface did usage itf).map Prod.fst)).Nodup := by
  unfold ipUsageInterface
  cases itf.ip_address with
  | none => exact h
  | some ip => exact appendAL_keys_nodup _ _ _ h

theorem ipUsageDevice_keys_nodup
    (dc : String × Device) :
    ∀ (usage : List ((String × Option Nat) × List ConflictMember)),
      (usage.map Prod.fst).Nodup →
      (((ipUsageDevice usage dc).map Prod.fst)).Nodup := by
  unfold ipUsageDevice
  generalize dc.2.interfaces = itfs
  induction itfs with
  | nil => intro usage h; exact h
  | cons itf rest ih =>
      intro usage h
      exact ih _ (ipUsageInterface_keys_nodup dc.1 usage itf h)

theorem ip_usage_keys_nodup (tp : Topology) :
    ((ip_usage tp).map Prod.fst).Nodup := by
  unfold ip_usage
  have hgen : ∀ (devs : List (String × Device))
      (usage : List ((String × Option Nat) × List ConflictMember)),
      (usage.map Prod.fst).Nodup →
      ((devs.foldl ipUsageDevice usage).map Prod.fst).Nodup := by
    intro devs
    induction devs with
    | nil => intro usage h; exact h
    | cons dc rest ih =>
        intro usage h
        exact ih _ (ipUsageDevice_keys_nodup dc usage h)
  exact hgen tp.devices [] (by simp)

/-- Claim C5: the ip-conflict rule buckets interfaces by their
`(ipAddress, vlanId)` pair and, for every bucket with more than one distinct
entry (entries are distinct whenever the bucket holds no duplicates, the
hypothesis below), emits exactly one critical conflict issue carrying the
whole bucket; the rule's status is fail exactly when some bucket has more
than one entry, and pass otherwise. -/
theorem ip_conflicts_spec (tp : Topology)
    (hdis : ∀ kg ∈ ip_usage tp, kg.2.Nodup) :
    (check_ip_conflicts tp).issues.Nodup ∧
    (∀ ip vl g, ValIssue.ipConflict ip vl g ∈ (check_ip_conflicts tp).issues ↔
        ((ip, vl), g) ∈ ip_usage tp ∧ 1 < g.length) ∧
    (∀ i ∈ (check_ip_conflicts tp).issues, i.severity = "critical") ∧
    ((check_ip_conflicts tp).status = "fail" ↔
        ∃ kg ∈ ip_usage tp, 1 < kg.2.length) ∧
    ((check_ip_conflicts tp).status = "fail" ∨
      (check_ip_conflicts tp).status = "pass") := by
  have husage := ip_usage_keys_nodup tp
  have hconf : ((ip_usage tp).filter (fun kg => 1 < kg.2.length)).Nodup :=
    ((husage.of_map Prod.fst)).filter _
  refine ⟨?_, ?_, ?_, ?_, ?_⟩
  · refine hconf.map_on ?_
    intro a ha b hb hab
    simp only [ValIssue.ipConflict.injEq] at hab
    obtain ⟨h1, h2, h3⟩ := hab
    exact Prod.ext (Prod.ext h1 h2) h3
  · intro ip vl g
    simp only [check_ip_conflicts, List.mem_map, List.mem_filter,
      ValIssue.ipConflict.injEq, decide_eq_true_eq]
    constructor
    · rintro ⟨kg, ⟨hmem, hlen⟩, h1, h2, h3⟩
      refine ⟨?_, ?_⟩
      · have : kg = ((ip, vl), g) := by
          obtain ⟨⟨ka, kb⟩, kc⟩ := kg
          simp only at h1 h2 h3
          subst h1; subst h2; subst h3; rfl
        rwa [this] at hmem
      · have : kg.2 = g := h3
        rwa [this] at hlen
    · rintro ⟨hmem, hlen⟩
      exact ⟨((ip, vl), g), ⟨hmem, hlen⟩, rfl, rfl, rfl⟩
  · intro i hi
    simp only [check_ip_conflicts, List.mem_map] at hi
    obtain ⟨kg, _, heq⟩ := hi
    rw [← heq]
    rfl
  · simp only [check_ip_conflicts]
    by_cases hc : (ip_usage tp).filter (fun kg => 1 < kg.2.length) = []
    · rw [if_neg (by simp [hc])]
      constructor
      · intro h; exact absurd h (by decide)
      · rintro ⟨kg, hmem, hlen⟩
        have : kg ∈ (ip_usage tp).filter (fun kg => 1 < kg.2.length) :=
          List.mem_filter.mpr ⟨hmem, by simpa using hlen⟩
        rw [hc] at this
        simp at this
    · rw [if_pos (by simpa using hc)]
      constructor
      · intro _
        obtain ⟨kg, hkg⟩ := List.exists_mem_of_ne_nil _ hc
        have := List.mem_filter.mp hkg
        exact ⟨kg, this.1, by simpa using this.2⟩
      · intro _; rfl
  · simp only [check_ip_conflicts]
    split <;> simp

/-- Witness for C5: two devices carrying the same ip on the same VLAN make
the rule fail with exactly the conflict issue listing both interfaces. -/
theorem ip_conflicts_spec_witness :
    (∀ kg ∈ ip_usage c5Tp, kg.2.Nodup) ∧
    ValIssue.ipConflict "192.168.1.5" (some 10)
        [{ device := "D1", interface := "eth0", vlan := some 10 },
         { device := "D2", interface := "eth0", vlan := some 10 }] ∈
      (check_ip_conflicts c5Tp).issues ∧
    (check_ip_conflicts c5Tp).status = "fail" := by
  refine ⟨by decide, ?_, ?_⟩
  · exact ((ip_conflicts_spec c5Tp (by decide)).2.1 _ _ _).mpr
      ⟨by decide, by decide⟩
  · exact ((ip_conflicts_spec c5Tp (by decide)).2.2.2.1).mpr
      ⟨(("192.168.1.5", some 10),
        [{ device := "D1", interface := "eth0", vlan := some 10 },
         { device := "D2", interface := "eth0", vlan := some 10 }]),
        by decide, by decide⟩

/-! ### Claim C7 -/

theorem typedDevices_ok (tp : Topology)
    (h : ∀ dc ∈ tp.devices, dc.2.device_type ≠ none) :
    typedDevices tp = .ok (tp.devices.map typedOf) := by
  unfold typedDevices
  apply mapME_ok
  intro dc hdc
  rcases hdt : dc.2.device_type with _ | t
  · exact absurd hdt (h dc hdc)
  · simp [typedOf, hdt]

theorem typedOf_fst (tp : Topology) :
    (tp.devices.map typedOf).map Prod.fst = tp.devices.map Prod.fst := by
  simp [typedOf]

/-- Membership in a type-filtered id list extracted from the typed device
pairs. -/
theorem mem_typed_filter (tp : Topology) (t : String)
    (ht : ∀ dc ∈ tp.devices, dc.2.device_type ≠ none) (x : String) :
    (x ∈ ((tp.devices.map typedOf).filter (fun dt => dt.2 = t)).map Prod.fst) ↔
      ∃ dc ∈ tp.devices, dc.1 = x ∧ dc.2.device_type = some t := by
  simp only [List.mem_map, List.mem_filter, decide_eq_true_eq]
  constructor
  · rintro ⟨dt, ⟨⟨dc, hdc, hdceq⟩, hty⟩, hfst⟩
    refine ⟨dc, hdc, ?_, ?_⟩
    · rw [← hfst, ← hdceq]; rfl
    · rcases hdev : dc.2.device_type with _ | t2
      · exact absurd hdev (ht dc hdc)
      · rw [← hdceq] at hty
        simp only [typedOf, hdev, Option.getD_some] at hty
        rw [hty]
  · rintro ⟨dc, hdc, hfst, hty⟩
    exact ⟨typedOf dc, ⟨⟨dc, hdc, rfl⟩, by simp [typedOf, hty]⟩, hfst⟩

theorem nodup_typed_filter (tp : Topology) (t : String)
    (hk : (tp.devices.map Prod.fst).Nodup) :
    (((tp.devices.map typedOf).filter (fun dt => dt.2 = t)).map Prod.fst).Nodup := by
  have hsub : List.Sublist
      ((((tp.devices.map typedOf).filter (fun dt => dt.2 = t))).map Prod.fst)
      ((tp.devices.map typedOf).map Prod.fst) :=
    List.Sublist.map Prod.fst (List.filter_sublist _)
  rw [typedOf_fst] at hsub
  exact hk.sublist hsub

/-- Claim C7: the missing-components rule reports, for every endpoint with
no link path to any router (an endpoint with zero links included), exactly
one issue, that issue is critical, and the rule's status is fail whenever
such an endpoint exists. -/
theorem missing_components_spec (tp : Topology)
    (hk : (tp.devices.map Prod.fst).Nodup)
    (ht : ∀ dc ∈ tp.devices, dc.2.device_type ≠ none) :
    ∃ r, check_missing_components tp = .ok r ∧
      (∀ e, ValIssue.endpointNoPath e ∈ r.issues ↔
        ((∃ dc ∈ tp.devices, dc.1 = e ∧ dc.2.device_type = some "endpoint") ∧
          ¬ ∃ dc ∈ tp.devices, dc.2.device_type = some "router" ∧
              hasPath (linkEdges tp) e dc.1 = true)) ∧
      r.issues.Nodup ∧
      (∀ e, (ValIssue.endpointNoPath e).severity = "critical") ∧
      ((∃ e, ValIssue.endpointNoPath e ∈ r.issues) → r.status = "fail") := by
  have htyp := typedDevices_ok tp ht
  unfold check_missing_components
  rw [htyp]
  simp only [Bind.bind, Except.bind]
  refine ⟨_, rfl, ?_, ?_, ?_, ?_⟩
  · intro e
    simp only [List.mem_append, List.mem_filterMap]
    constructor
    · rintro (⟨a, ha, hif⟩ | hdhcp)
      · by_cases hany : ((((tp.devices.map typedOf).filter
            (fun dt => dt.2 = "router")).map Prod.fst).any
              (fun rt => hasPath (linkEdges tp) a rt)) = true
        · rw [if_pos hany] at hif; simp at hif
        · rw [if_neg hany] at hif
          injection hif with hif
          injection hif with hif
          subst hif
          refine ⟨(mem_typed_filter tp "endpoint" ht a).mp ha, ?_⟩
          rintro ⟨dc, hdc, hty, hpath⟩
          refine hany (List.any_eq_true.mpr ⟨dc.1, ?_, by simpa using hpath⟩)
          exact (mem_typed_filter tp "router" ht dc.1).mpr ⟨dc, hdc, rfl, hty⟩
      · have : ∀ s, ValIssue.dhcpMissing s ≠ ValIssue.endpointNoPath e := by
          intro s h; cases h
        by_cases hr : (((tp.devices.map typedOf).filter
            (fun dt => dt.2 = "router")).map Prod.fst).length = 0
        · rw [if_pos hr] at hdhcp
          rcases List.mem_map.mp hdhcp with ⟨s, _, habs⟩
          exact absurd habs (this s)
        · rw [if_neg hr] at hdhcp
          simp at hdhcp
    · rintro ⟨hend, hnone⟩
      left
      refine ⟨e, (mem_typed_filter tp "endpoint" ht e).mpr hend, ?_⟩
      have hany : ¬ ((((tp.devices.map typedOf).filter
          (fun dt => dt.2 = "router")).map Prod.fst).any
            (fun rt => hasPath (linkEdges tp) e rt)) = true := by
        intro hany
        rcases List.any_eq_true.mp hany with ⟨rt, hrt, hpath⟩
        rcases (mem_typed_filter tp "router" ht rt).mp hrt with ⟨dc, hdc, hfst, hty⟩
        exact hnone ⟨dc, hdc, hty, by rw [hfst]; simpa using hpath⟩
      rw [if_neg hany]
  · apply List.Nodup.append
    · refine List.Nodup.filterMap ?_ (nodup_typed_filter tp "endpoint" hk)
      intro a a2 b hb hb2
      by_cases h1 : ((((tp.devices.map typedOf).filter
          (fun dt => dt.2 = "router")).map Prod.fst).any
            (fun rt => hasPath (linkEdges tp) a rt)) = true
      · rw [if_pos h1] at hb; simp at hb
      · rw [if_neg h1] at hb
        by_cases h2 : ((((tp.devices.map typedOf).filter
            (fun dt => dt.2 = "router")).map Prod.fst).any
              (fun rt => hasPath (linkEdges tp) a2 rt)) = true
        · rw [if_pos h2] at hb2; simp at hb2
        · rw [if_neg h2] at hb2
          simp only [Option.mem_def, Option.some.injEq] at hb hb2
          subst hb
          injection hb2 with h4
          exact h4.symm
    · by_cases hr : (((tp.devices.map typedOf).filter
          (fun dt => dt.2 = "router")).map Prod.fst).length = 0
      · rw [if_pos hr]
        refine List.Nodup.map ?_ (List.nodup_dedup _)
        intro a b h
        injection h
      · rw [if_neg hr]; exact List.nodup_nil
    · intro a ha hb
      rcases List.mem_filterMap.mp ha with ⟨x, _, hx⟩
      by_cases h1 : ((((tp.devices.map typedOf).filter
          (fun dt => dt.2 = "router")).map Prod.fst).any
            (fun rt => hasPath (linkEdges tp) x rt)) = true
      · rw [if_pos h1] at hx; simp at hx
      · rw [if_neg h1] at hx
        injection hx with hx
        subst hx
        by_cases hr : (((tp.devices.map typedOf).filter
            (fun dt => dt.2 = "router")).map Prod.fst).length = 0
        · rw [if_pos hr] at hb
          rcases List.mem_map.mp hb with ⟨s, _, habs⟩
          cases habs
        · rw [if_neg hr] at hb
          simp at hb
  · intro e; rfl
  · rintro ⟨e, he⟩
    exact if_pos (List.any_eq_true.mpr ⟨ValIssue.endpointNoPath e, he, rfl⟩)

/-- Witness for C7: a lone endpoint with zero links is reported as
disconnected from every router and the rule fails. -/
theorem missing_components_spec_witness :
    ∃ r, check_missing_components c7Tp = .ok r ∧
      ValIssue.endpointNoPath "PC1" ∈ r.issues ∧
      (ValIssue.endpointNoPath "PC1").severity = "critical" ∧
      r.status = "fail" := by
  obtain ⟨r, hr, hiff, _, hsev, hstat⟩ :=
    missing_components_spec c7Tp (by decide) (by decide)
  have hmem : ValIssue.endpointNoPath "PC1" ∈ r.issues :=
    (hiff "PC1").mpr ⟨by decide, by decide⟩
  exact ⟨r, hr, hmem, hsev "PC1", hstat ⟨"PC1", hmem⟩⟩

/-! ### Claim C6 -/

theorem lookup_mem {β : Type} (l : List (String × β)) (k : String) (v : β)
    (h : l.lookup k = some v) : (k, v) ∈ l := by
  induction l with
  | nil => simp [List.lookup] at h
  | cons kv rest ih =>
      obtain ⟨k2, v2⟩ := kv
      by_cases h2 : k2 = k
      · subst h2
        simp only [List.lookup, beq_self_eq_true] at h
        injection h with h
        subst h
        exact List.mem_cons_self _ _
      · have hb : (k == k2) = false := beq_eq_false_iff_ne.mpr (Ne.symm h2)
        simp only [List.lookup, hb] at h
        exact List.mem_cons_of_mem _ (ih h)

theorem lookup_some_of_mem_fst {β : Type} (l : List (String × β)) (k : String)
    (h : k ∈ l.map Prod.fst) : ∃ v, l.lookup k = some v := by
  induction l with
  | nil => simp at h
  | cons kv rest ih =>
      obtain ⟨k2, v2⟩ := kv
      by_cases h2 : k2 = k
      · subst h2; exact ⟨v2, by simp [List.lookup]⟩
      · have hb : (k == k2) = false := beq_eq_false_iff_ne.mpr (Ne.symm h2)
        simp only [List.map_cons, List.mem_cons] at h
        rcases h with he | hm
        · exact absurd he.symm h2
        · rcases ih hm with ⟨v, hv⟩
          exact ⟨v, by simp [List.lookup, hb, hv]⟩

/-- Claim C6: the redundancy rule reports exactly the articulation points of
the undirected device graph (severity critical for a router, warning
otherwise) and exactly the bridges (severity warning). -/
theorem redundancy_spec (tp : Topology)
    (he : ∀ e ∈ linkEdges tp, e.1 ∈ tp.devices.map Prod.fst ∧
        e.2 ∈ tp.devices.map Prod.fst)
    (ht : ∀ dc ∈ tp.devices, dc.2.device_type ≠ none) :
    ∃ r, check_redundancy tp = .ok r ∧
      (∀ v t, ValIssue.artPoint v t ∈ r.issues ↔
        (v ∈ redundancyNodes tp ∧
          isArticulationPoint (redundancyNodes tp) (dedupEdges (linkEdges tp)) v
              = true ∧
          (tp.devices.lookup v).bind (fun d => d.device_type) = some t)) ∧
      (∀ a b, ValIssue.bridgeSpof a b ∈ r.issues ↔
        ((a, b) ∈ dedupEdges (linkEdges tp) ∧
          isBridge (dedupEdges (linkEdges tp)) (a, b) = true)) ∧
      (∀ v t, (ValIssue.artPoint v t).severity =
        if t = "router" then "critical" else "warning") ∧
      (∀ a b, (ValIssue.bridgeSpof a b).severity = "warning") := by
  have hnode : ∀ v ∈ redundancyNodes tp,
      ∃ t, (tp.devices.lookup v).bind (fun d => d.device_type) = some t := by
    intro v hv
    have hkeys : v ∈ tp.devices.map Prod.fst := by
      have hv2 := List.mem_dedup.mp hv
      rcases List.mem_append.mp hv2 with h1 | h2
      · exact h1
      · rcases List.mem_flatMap.mp h2 with ⟨e, heE, hve⟩
        rcases he e heE with ⟨hm1, hm2⟩
        rcases List.mem_cons.mp hve with h3 | h3
        · rw [h3]; exact hm1
        · rcases List.mem_cons.mp h3 with h4 | h4
          · rw [h4]; exact hm2
          · simp at h4
    obtain ⟨cfg, hcfg⟩ := lookup_some_of_mem_fst tp.devices v hkeys
    have hmem := lookup_mem tp.devices v cfg hcfg
    rcases hdt : cfg.device_type with _ | t
    · exact absurd hdt (ht _ hmem)
    · exact ⟨t, by simp [hcfg, hdt]⟩
  have hartsOk : mapME (fun v =>
      match (tp.devices.lookup v).bind (fun d => d.device_type) with
      | some t => Except.ok (ValIssue.artPoint v t)
      | none => Except.error "device_type")
      ((redundancyNodes tp).filter (fun v =>
        isArticulationPoint (redundancyNodes tp) (dedupEdges (linkEdges tp)) v)) =
      .ok (((redundancyNodes tp).filter (fun v =>
        isArticulationPoint (redundancyNodes tp) (dedupEdges (linkEdges tp)) v)).map
          (fun v => ValIssue.artPoint v
            (((tp.devices.lookup v).bind (fun d => d.device_type)).getD ""))) := by
    apply mapME_ok
    intro v hv
    rcases hnode v (List.mem_of_mem_filter hv) with ⟨t, hty⟩
    simp [hty]
  unfold check_redundancy
  simp only [Bind.bind]
  rw [hartsOk]
  simp only [Except.bind]
  refine ⟨_, rfl, ?_, ?_, fun v t => rfl, fun a b => rfl⟩
  · intro v t
    simp only [List.mem_append, List.mem_map, List.mem_filter]
    constructor
    · rintro (⟨u, ⟨hu, hart⟩, heq⟩ | ⟨e, _, habs⟩)
      · injection heq with h1 h2
        subst h1
        rcases hnode u hu with ⟨t2, ht2⟩
        rw [ht2] at h2
        simp only [Option.getD_some] at h2
        subst h2
        exact ⟨hu, by simpa using hart, ht2⟩
      · cases habs
    · rintro ⟨hv, hart, hbind⟩
      left
      refine ⟨v, ⟨hv, by simpa using hart⟩, ?_⟩
      rw [hbind]
      rfl
  · intro a b
    simp only [List.mem_append, List.mem_map, List.mem_filter]
    constructor
    · rintro (⟨u, _, habs⟩ | ⟨e, ⟨he2, hbr⟩, heq⟩)
      · cases habs
      · injection heq with h1 h2
        have : e = (a, b) := by
          obtain ⟨e1, e2⟩ := e
          simp only at h1 h2
          subst h1; subst h2; rfl
        rw [this] at he2 hbr
        exact ⟨he2, by simpa using hbr⟩
    · rintro ⟨hmem, hbr⟩
      right
      exact ⟨(a, b), ⟨hmem, by simpa using hbr⟩, rfl⟩

/-- Witness for C6: in the chain A - B - C, device B is reported as the
articulation point (severity warning, it is a switch) and both links are
reported as bridges. -/
theorem redundancy_spec_witness :
    ∃ r, check_redundancy chainTp = .ok r ∧
      ValIssue.artPoint "B" "switch" ∈ r.issues ∧
      (ValIssue.artPoint "B" "switch").severity = "warning" ∧
      ValIssue.bridgeSpof "A" "B" ∈ r.issues ∧
      ValIssue.bridgeSpof "B" "C" ∈ r.issues ∧
      (ValIssue.bridgeSpof "A" "B").severity = "warning" := by
  obtain ⟨r, hr, hart, hbr, hsev, hsevb⟩ :=
    redundancy_spec chainTp (by decide) (by decide)
  refine ⟨r, hr, ?_, ?_, ?_, ?_, hsevb "A" "B"⟩
  · exact (hart "B" "switch").mpr ⟨by decide, by decide, by decide⟩
  · rw [hsev "B" "switch"]; decide
  · exact (hbr "A" "B").mpr ⟨by decide, by decide⟩
  · exact (hbr "B" "C").mpr ⟨by decide, by decide⟩

/-! ### Claim C2 -/

theorem length_pairsOf {α : Type} (l : List α) :
    (pairsOf l).length = l.length * (l.length - 1) / 2 := by
  induction l with
  | nil => simp [pairsOf]
  | cons x xs ih =>
      simp only [pairsOf, List.length_append, List.length_map, ih,
        List.length_cons]
      have h2 : 2 ∣ xs.length * (xs.length - 1) := by
        rcases Nat.even_or_odd xs.length with he | ho
        · exact he.two_dvd.mul_right _
        · rcases ho with ⟨k, hk⟩
          rw [hk]
          exact ⟨(2 * k + 1) * k, by simp [Nat.add_sub_cancel]; ring⟩
      have hb : (xs.length + 1) * (xs.length + 1 - 1) =
          xs.length * (xs.length - 1) + 2 * xs.length := by
        cases hxl : xs.length with
        | zero => rfl
        | succ j => simp only [Nat.succ_sub_one]; ring
      omega

theorem foldl_insertA_entries {γ : Type} (f : γ → String × Link) :
    ∀ (ps : List γ) (links : Links),
      ((ps.map (fun p => (f p).1)).Nodup) →
      (∀ p ∈ ps, links.lookup (f p).1 = none) →
      ps.foldl (fun links p => insertA links (f p).1 (f p).2) links =
        links ++ ps.map f := by
  intro ps
  induction ps with
  | nil => intro links _ _; simp
  | cons p rest ih =>
      intro links hnd hfresh
      simp only [List.map_cons, List.nodup_cons] at hnd
      simp only [List.foldl_cons]
      rw [insertA_eq_append _ _ _ (hfresh p (List.mem_cons_self _ _))]
      rw [ih (links ++ [f p]) hnd.2 ?_]
      · simp
      · intro q hq
        rw [lookup_append_none _ _ _ (hfresh q (List.mem_cons_of_mem _ hq))]
        have hne : ((f q).1 == (f p).1) = false := by
          refine beq_eq_false_iff_ne.mpr ?_
          intro heq
          exact hnd.1 (heq ▸ List.mem_map_of_mem _ hq)
        simp [List.lookup, hne]

/-- The subnet-link phase, started from any link table whose keys avoid all
generated link ids, appends exactly the per-group pair entries. -/
theorem build_subnet_links_entries :
    ∀ (gs : SubnetGroups) (links : Links),
      (linkIdsOf gs).Nodup →
      (∀ k ∈ linkIdsOf gs, links.lookup k = none) →
      gs.foldl
        (fun links g =>
          if 1 < g.2.length then
            (pairsOf g.2).foldl
              (fun links p =>
                insertA links (subnetLinkEntry g.1 p).1 (subnetLinkEntry g.1 p).2)
              links
          else links)
        links = links ++ gs.flatMap groupEntries := by
  intro gs
  induction gs with
  | nil => intro links _ _; simp
  | cons g rest ih =>
      intro links hnd hfresh
      have hids : linkIdsOf (g :: rest) =
          (groupEntries g).map Prod.fst ++ linkIdsOf rest := by
        simp [linkIdsOf]
      rw [hids] at hnd hfresh
      rcases List.nodup_append.mp hnd with ⟨hnd1, hnd2, hdisj⟩
      simp only [List.foldl_cons]
      by_cases hlen : 1 < g.2.length
      · rw [if_pos hlen]
        have hentries : (pairsOf g.2).foldl
            (fun links p =>
              insertA links (subnetLinkEntry g.1 p).1 (subnetLinkEntry g.1 p).2)
            links = links ++ (pairsOf g.2).map (subnetLinkEntry g.1) := by
          refine foldl_insertA_entries (subnetLinkEntry g.1) (pairsOf g.2) links ?_ ?_
          · have : (pairsOf g.2).map (fun p => (subnetLinkEntry g.1 p).1) =
                (groupEntries g).map Prod.fst := by
              simp [groupEntries, if_pos hlen, List.map_map]
            rw [this]
            exact hnd1
          · intro p hp
            refine hfresh (subnetLinkEntry g.1 p).1 ?_
            refine List.mem_append.mpr (Or.inl ?_)
            simp only [groupEntries, if_pos hlen, List.map_map]
            exact List.mem_map_of_mem _ hp
        rw [hentries]
        have hge : (pairsOf g.2).map (subnetLinkEntry g.1) = groupEntries g := by
          simp [groupEntries, if_pos hlen]
        rw [hge]
        rw [ih (links ++ groupEntries g) hnd2 ?_]
        · simp [List.flatMap_cons, List.append_assoc]
        · intro k hk
          rw [lookup_append_none _ _ _
            (hfresh k (List.mem_append.mpr (Or.inr hk)))]
          refine lookup_none_of_not_mem_fst _ _ ?_
          intro hkmem
          exact (hdisj hkmem) hk
      · rw [if_neg hlen]
        have hge : groupEntries g = [] := by simp [groupEntries, if_neg hlen]
        rw [ih links hnd2 (fun k hk =>
          hfresh k (List.mem_append.mpr (Or.inr hk)))]
        simp [List.flatMap_cons, hge]

/-- Claim C2 (amended): every subnet group of size n generates exactly
n(n-1)/2 pairwise link insertions; when the generated link ids are pairwise
distinct — in particular when no device appears twice within a group and no
device pair recurs across groups — the built link table holds exactly
n(n-1)/2 entries per group, and a device set with no shared-subnet overlaps
yields zero subnet links.  (As stated originally the claim fails because
colliding link ids overwrite, see the counterexample.) -/
theorem subnet_links_count (devices : List (String × Device))
    (gs : SubnetGroups) (hg : groupBySubnet devices = .ok gs)
    (hids : (linkIdsOf gs).Nodup) :
    (build_subnet_links gs).length =
        (gs.map (fun g => g.2.length * (g.2.length - 1) / 2)).sum ∧
      ((∀ g ∈ gs, g.2.length ≤ 1) → build_subnet_links gs = []) := by
  have hmain : build_subnet_links gs = gs.flatMap groupEntries := by
    have := build_subnet_links_entries gs [] hids (fun k _ => rfl)
    simpa [build_subnet_links] using this
  constructor
  · rw [hmain, List.length_flatMap]
    congr 1
    refine List.map_eq_map_iff.mpr ?_
    intro g hgmem
    by_cases hlen : 1 < g.2.length
    · simp [groupEntries, if_pos hlen, length_pairsOf]
    · have h01 : g.2.length = 0 ∨ g.2.length = 1 := by omega
      rcases h01 with h0 | h1
      · simp [groupEntries, hlen, h0]
      · simp [groupEntries, hlen, h1]
  · intro hall
    rw [hmain]
    refine List.eq_nil_iff_forall_not_mem.mpr ?_
    intro x hx
    rcases List.mem_flatMap.mp hx with ⟨g, hgmem, hxg⟩
    have hle := hall g hgmem
    unfold groupEntries at hxg
    rw [if_neg (by omega)] at hxg
    simp at hxg

/-- Witness for C2 (amended): two disjoint 2-member subnet groups with four
distinct devices produce exactly one link each. -/
theorem subnet_links_count_witness :
    ∃ gs, groupBySubnet devicesC2ok = .ok gs ∧
      (linkIdsOf gs).Nodup ∧
      gs.map (fun g => g.2.length) = [2, 2] ∧
      (build_subnet_links gs).length = 2 := by
  refine ⟨_, rfl, ?hnd, ?hlen, ?_⟩
  case hnd => decide
  case hlen => decide
  have h := subnet_links_count devicesC2ok _ rfl (by decide)
  rw [h.1]
  decide

/-- Counterexample for C2: a device with two interfaces in one subnet makes
the group have size 3, but colliding link ids are overwritten in the dict,
so only 2 links — not 3 · 2 / 2 = 3 — reach the topology. -/
theorem subnet_links_count_cex :
    ∃ gs, groupBySubnet devicesC2 = .ok gs ∧
      gs.map (fun g => g.2.length) = [3] ∧
      (build_subnet_links gs).length = 2 ∧
      ¬ (build_subnet_links gs).length =
          (gs.map (fun g => g.2.length * (g.2.length - 1) / 2)).sum := by
  refine ⟨_, rfl, ?_, ?_, ?_⟩ <;> decide

/-! ### Claim C9 -/

theorem lastCharE_ok (s : String) (h : s ≠ "") :
    ∃ c, lastCharE s = .ok c := by
  unfold lastCharE
  cases hd : s.data.getLast? with
  | some c => exact ⟨c, rfl⟩
  | none =>
      exfalso
      refine h (String.ext ?_)
      simpa using hd

theorem stepSwitchOther_ok (sid : String) (svlans : List (Option Nat))
    (links : Links) (other : String × Device) (hsid : sid ≠ "")
    (hoid : other.1 ≠ "") :
    ∃ l2, stepSwitchOther sid svlans links other = .ok l2 := by
  unfold stepSwitchOther
  by_cases h1 : other.1 ≠ sid ∧ ¬ sid ∈ device1Ids links
  · rw [if_pos h1]
    by_cases h2 : shares_vlan_segment other.2 svlans = true
    · rw [if_pos h2]; exact ⟨_, rfl⟩
    · rw [if_neg h2]
      by_cases h3 : other.2.device_type = some "router"
      · rw [if_pos h3]
        obtain ⟨c1, hc1⟩ := lastCharE_ok sid hsid
        obtain ⟨c2, hc2⟩ := lastCharE_ok other.1 hoid
        rw [hc1, hc2]
        by_cases h4 : c1 = c2
        · exact ⟨add_switch_link links sid other.1, by simp [h4]⟩
        · exact ⟨links, by simp [h4]⟩
      · rw [if_neg h3]; exact ⟨_, rfl⟩
  · rw [if_neg h1]; exact ⟨_, rfl⟩

theorem runOthers_ok (sid : String) (svlans : List (Option Nat))
    (hsid : sid ≠ "") :
    ∀ (others : List (String × Device)) (links : Links),
      (∀ o ∈ others, o.1 ≠ "") →
      ∃ res, runOthers sid svlans links others = .ok res := by
  intro others
  induction others with
  | nil => intro links _; exact ⟨links, rfl⟩
  | cons o rest ih =>
      intro links hne
      obtain ⟨l2, hl2⟩ :=
        stepSwitchOther_ok sid svlans links o hsid (hne o (List.mem_cons_self _ _))
      obtain ⟨res, hres⟩ := ih l2 (fun x hx => hne x (List.mem_cons_of_mem _ hx))
      exact ⟨res, by simp [runOthers, hl2, hres]⟩

theorem runSwitches_ok (devices : List (String × Device))
    (hdev : ∀ o ∈ devices, o.1 ≠ "") :
    ∀ (sws : List (String × Device)) (links : Links),
      (∀ sw ∈ sws, sw.1 ≠ "") →
      ∃ res, runSwitches devices links sws = .ok res := by
  intro sws
  induction sws with
  | nil => intro links _; exact ⟨links, rfl⟩
  | cons sw rest ih =>
      intro links hsw
      obtain ⟨sid, scfg⟩ := sw
      obtain ⟨l2, hl2⟩ := runOthers_ok sid (scfg.vlans.map (fun v => v.id))
        (hsw (sid, scfg) (List.mem_cons_self _ _)) devices links hdev
      obtain ⟨res, hres⟩ := ih l2 (fun x hx => hsw x (List.mem_cons_of_mem _ hx))
      exact ⟨res, by simp [runSwitches, hl2, hres]⟩

theorem connect_switches_ok (devices : List (String × Device)) (links : Links)
    (hdev : ∀ o ∈ devices, o.1 ≠ "") :
    ∃ res, connect_switches_to_segments devices links = .ok res := by
  unfold connect_switches_to_segments
  exact runSwitches_ok devices hdev _ links
    (fun sw hsw => hdev sw (List.mem_of_mem_filter hsw))

theorem groupInterfaces_ok (did : String) :
    ∀ (itfs : List Interface) (gs : SubnetGroups),
      (∀ itf ∈ itfs, ∀ ip mask, itf.ip_address = some ip →
        itf.subnet_mask = some mask → ∃ s, calculate_subnet ip mask = .ok s) →
      ∃ gs2, groupInterfaces did gs itfs = .ok gs2 := by
  intro itfs
  induction itfs with
  | nil => intro gs _; exact ⟨gs, rfl⟩
  | cons itf rest ih =>
      intro gs hok
      have hrest := fun i hi => hok i (List.mem_cons_of_mem _ hi)
      cases hip : itf.ip_address with
      | none =>
          obtain ⟨gs2, hgs2⟩ := ih gs hrest
          exact ⟨gs2, by simp [groupInterfaces, hip, hgs2]⟩
      | some ip =>
          cases hmask : itf.subnet_mask with
          | none =>
              obtain ⟨gs2, hgs2⟩ := ih gs hrest
              exact ⟨gs2, by simp [groupInterfaces, hip, hmask, hgs2]⟩
          | some mask =>
              obtain ⟨s, hs⟩ :=
                hok itf (List.mem_cons_self _ _) ip mask hip hmask
              obtain ⟨gs2, hgs2⟩ :=
                ih (appendAL gs s (subnetMemberOf did itf ip)) hrest
              exact ⟨gs2, by simp [groupInterfaces, hip, hmask, hs, hgs2]⟩

theorem groupBySubnet_ok (devices : List (String × Device))
    (hip : ∀ dc ∈ devices, ∀ itf ∈ dc.2.interfaces, ∀ ip mask,
      itf.ip_address = some ip → itf.subnet_mask = some mask →
      ∃ s, calculate_subnet ip mask = .ok s) :
    ∃ gs, groupBySubnet devices = .ok gs := by
  unfold groupBySubnet
  suffices h : ∀ (devs : List (String × Device)) (gs : SubnetGroups),
      (∀ dc ∈ devs, ∀ itf ∈ dc.2.interfaces, ∀ ip mask,
        itf.ip_address = some ip → itf.subnet_mask = some mask →
        ∃ s, calculate_subnet ip mask = .ok s) →
      ∃ gs2, groupDevices gs devs = .ok gs2 by
    exact h devices [] hip
  intro devs
  induction devs with
  | nil => intro gs _; exact ⟨gs, rfl⟩
  | cons dc rest ih =>
      intro gs hok
      obtain ⟨gs2, hgs2⟩ := groupInterfaces_ok dc.1 dc.2.interfaces gs
        (hok dc (List.mem_cons_self _ _))
      obtain ⟨gs3, hgs3⟩ := ih gs2 (fun d hd => hok d (List.mem_cons_of_mem _ hd))
      refine ⟨gs3, ?_⟩
      have : groupDevices gs (dc :: rest) =
          match groupInterfaces dc.1 gs dc.2.interfaces with
          | .error e => .error e
          | .ok gs2 => groupDevices gs2 rest := by
        obtain ⟨did, cfg⟩ := dc
        rfl
      rw [this, hgs2]
      exact hgs3

/-- Claim C9 (amended): the topology build registers records with missing
fields and returns a graph — except that `_calculate_subnet` has no guard,
so an interface carrying both an ip address and a mask raises when either
fails to parse as dotted integers; and the bandwidth default applied during
subnet grouping is 100, not 100000 (the 1500/100000 defaults live in the
config parsing layer, outside the builder). -/
theorem build_total_amended (devices : List (String × Device))
    (hip : ∀ dc ∈ devices, ∀ itf ∈ dc.2.interfaces, ∀ ip mask,
        itf.ip_address = some ip → itf.subnet_mask = some mask →
        ∃ s, calculate_subnet ip mask = .ok s)
    (hid : ∀ dc ∈ devices, dc.1 ≠ "") :
    (∃ links, build_connections devices = .ok links) ∧
      (∀ did itf ip, itf.bandwidth = none →
        (subnetMemberOf did itf ip).bandwidth = 100) := by
  constructor
  · obtain ⟨gs, hgs⟩ := groupBySubnet_ok devices hip
    obtain ⟨links, hl⟩ :=
      connect_switches_ok devices (build_subnet_links gs) hid
    exact ⟨links, by simp [build_connections, Bind.bind, Except.bind, hgs, hl]⟩
  · intro did itf ip h
    simp [subnetMemberOf, h]

/-- Witness for C9 (amended): an addressless two-device set builds
successfully, and a missing bandwidth field yields the grouping default
100. -/
theorem build_total_amended_witness :
    (∃ links, build_connections devicesC9ok = .ok links) ∧
      (subnetMemberOf "X" itfNoBw "10.0.0.9").bandwidth = 100 := by
  have h := build_total_amended devicesC9ok ?hip ?hid
  · exact ⟨h.1, h.2 "X" itfNoBw "10.0.0.9" rfl⟩
  case hip =>
    intro dc hdc itf hitf ip mask h1 h2
    rcases List.mem_cons.mp hdc with he | hdc2
    · rw [he] at hitf
      simp [swS1] at hitf
    · rcases List.mem_cons.mp hdc2 with he2 | h3
      · rw [he2] at hitf
        simp only [epVlan10, List.mem_singleton] at hitf
        rw [hitf] at h1
        simp at h1
      · simp at h3
  case hid => decide

/-- Counterexample for C9: a record whose interface has the malformed ip
address "abc" makes the build raise instead of falling back to a default,
and the builder's bandwidth default is 100, not 100000. -/
theorem build_raises_cex :
    build_connections devicesC9 = .error "invalid literal for int: abc" ∧
      (subnetMemberOf "A" itfNoBw "10.0.0.9").bandwidth = 100 ∧
      ¬ (subnetMemberOf "A" itfNoBw "10.0.0.9").bandwidth = 100000 := by
  exact ⟨rfl, rfl, by decide⟩

/-! ### Claim C3 -/

theorem device1Ids_append (l1 l2 : Links) :
    device1Ids (l1 ++ l2) = device1Ids l1 ++ device1Ids l2 := by
  simp [device1Ids]

theorem add_switch_link_cases (links : Links) (sid did : String) :
    add_switch_link links sid did = links ∨
      (links.lookup (sid ++ "-" ++ did) = none ∧
        links.lookup (did ++ "-" ++ sid) = none ∧
        add_switch_link links sid did =
          links ++ [(sid ++ "-" ++ did, swLinkEntry sid did)]) := by
  unfold add_switch_link
  by_cases h : (links.lookup (sid ++ "-" ++ did)).isNone ∧
      (links.lookup (did ++ "-" ++ sid)).isNone
  · right
    refine ⟨Option.isNone_iff_eq_none.mp h.1, Option.isNone_iff_eq_none.mp h.2, ?_⟩
    rw [if_pos h]
    exact insertA_eq_append _ _ _ (Option.isNone_iff_eq_none.mp h.1)
  · left
    rw [if_neg h]

theorem runOthers_noop (sid : String) (svlans : List (Option Nat)) :
    ∀ (others : List (String × Device)) (links : Links),
      sid ∈ device1Ids links →
      runOthers sid svlans links others = .ok links := by
  intro others
  induction others with
  | nil => intro links _; rfl
  | cons o rest ih =>
      intro links hmem
      have hstep : stepSwitchOther sid svlans links o = .ok links := by
        unfold stepSwitchOther
        rw [if_neg (by simp [hmem])]
      simp [runOthers, hstep, ih links hmem]

/-- One switch's candidate loop either leaves the link table unchanged or
appends exactly one management link, for a candidate satisfying the guard
and one of the two strategies; after that first addition the guard blocks
every further candidate. -/
theorem runOthers_spec (sid : String) (svlans : List (Option Nat)) :
    ∀ (others : List (String × Device)) (links res : Links),
      runOthers sid svlans links others = .ok res →
      res = links ∨
        ∃ oid ocfg, (oid, ocfg) ∈ others ∧ oid ≠ sid ∧
          ¬ sid ∈ device1Ids links ∧
          strategyOk sid svlans oid ocfg ∧
          links.lookup (sid ++ "-" ++ oid) = none ∧
          links.lookup (oid ++ "-" ++ sid) = none ∧
          res = links ++ [(sid ++ "-" ++ oid, swLinkEntry sid oid)] := by
  intro others
  induction others with
  | nil =>
      intro links res h
      left
      simp only [runOthers] at h
      injection h with h
      exact h.symm
  | cons o rest ih =>
      intro links res h
      simp only [runOthers] at h
      rcases hstep : stepSwitchOther sid svlans links o with e | l2
      · rw [hstep] at h; simp at h
      · rw [hstep] at h
        replace h : runOthers sid svlans l2 rest = .ok res := h
        have hlift : runOthers sid svlans l2 rest = .ok res → l2 = links →
            (res = links ∨ ∃ oid ocfg, (oid, ocfg) ∈ o :: rest ∧ oid ≠ sid ∧
              ¬ sid ∈ device1Ids links ∧ strategyOk sid svlans oid ocfg ∧
              links.lookup (sid ++ "-" ++ oid) = none ∧
              links.lookup (oid ++ "-" ++ sid) = none ∧
              res = links ++ [(sid ++ "-" ++ oid, swLinkEntry sid oid)]) := by
          intro h2 heq
          rw [heq] at h2
          rcases ih links res h2 with h3 | ⟨oid, ocfg, hmem, hrest⟩
          · exact Or.inl h3
          · exact Or.inr ⟨oid, ocfg, List.mem_cons_of_mem _ hmem, hrest⟩
        have hadded : ∀ (hadd : l2 = links ++
              [(sid ++ "-" ++ o.1, swLinkEntry sid o.1)]),
            res = l2 := by
          intro hadd
          have hsid2 : sid ∈ device1Ids l2 := by
            rw [hadd, device1Ids_append]
            simp [device1Ids, swLinkEntry]
          have hno := runOthers_noop sid svlans rest l2 hsid2
          rw [hno] at h
          injection h with h
          exact h.symm
        unfold stepSwitchOther at hstep
        by_cases hg : o.1 ≠ sid ∧ ¬ sid ∈ device1Ids links
        · rw [if_pos hg] at hstep
          by_cases hsh : shares_vlan_segment o.2 svlans = true
          · rw [if_pos hsh] at hstep
            injection hstep with hstep
            rcases add_switch_link_cases links sid o.1 with hadd | ⟨hk1, hk2, hadd⟩
            · exact hlift h (hstep ▸ hadd.symm ▸ rfl)
            · right
              rw [hadd] at hstep
              refine ⟨o.1, o.2, ?_, hg.1, hg.2, Or.inl hsh, hk1, hk2, ?_⟩
              · rw [Prod.mk.eta]; exact List.mem_cons_self _ _
              · rw [hadded hstep.symm, ← hstep]
          · rw [if_neg hsh] at hstep
            by_cases hrt : o.2.device_type = some "router"
            · rw [if_pos hrt] at hstep
              rcases hc1 : lastCharE sid with e1 | c1
              · rw [hc1] at hstep; simp at hstep
              · rcases hc2 : lastCharE o.1 with e2 | c2
                · rw [hc1, hc2] at hstep; simp at hstep
                · rw [hc1, hc2] at hstep
                  simp only at hstep
                  by_cases hcc : c1 = c2
                  · rw [if_pos hcc] at hstep
                    injection hstep with hstep
                    rcases add_switch_link_cases links sid o.1 with hadd |
                        ⟨hk1, hk2, hadd⟩
                    · exact hlift h (hstep ▸ hadd.symm ▸ rfl)
                    · right
                      rw [hadd] at hstep
                      refine ⟨o.1, o.2, ?_, hg.1, hg.2,
                        Or.inr ⟨eq_false_of_ne_true hsh, hrt, c1, hc1, hcc ▸ hc2⟩,
                        hk1, hk2, ?_⟩
                      · rw [Prod.mk.eta]; exact List.mem_cons_self _ _
                      · rw [hadded hstep.symm, ← hstep]
                  · rw [if_neg hcc] at hstep
                    injection hstep with hstep
                    exact hlift h hstep.symm
            · rw [if_neg hrt] at hstep
              injection hstep with hstep
              exact hlift h hstep.symm
        · rw [if_neg hg] at hstep
          injection hstep with hstep
          exact hlift h hstep.symm

/-- The switch pass appends, per processed switch, at most one management
link satisfying the guard and strategy facts, all relative to the link
table the pass started from. -/
theorem runSwitches_spec (devices : List (String × Device)) :
    ∀ (sws : List (String × Device)) (links res : Links),
      (∀ sw ∈ sws, sw ∈ devices ∧ sw.2.device_type = some "switch") →
      runSwitches devices links sws = .ok res →
      ∃ new, res = links ++ new ∧
        (∀ kl ∈ new, ∃ sid scfg oid ocfg,
            kl = (sid ++ "-" ++ oid, swLinkEntry sid oid) ∧
            (sid, scfg) ∈ devices ∧ scfg.device_type = some "switch" ∧
            (oid, ocfg) ∈ devices ∧ oid ≠ sid ∧
            strategyOk sid (scfg.vlans.map (fun v => v.id)) oid ocfg) ∧
        (∀ kl ∈ new, ¬ kl.2.device1.device_id ∈ device1Ids links) ∧
        (∀ s, ((new.filter (fun kl => kl.2.device1.device_id = s)).length ≤ 1)) ∧
        (∀ kl ∈ new, ¬ kl.1 ∈ links.map Prod.fst ∧
            ¬ (kl.2.device2.device_id ++ "-" ++ kl.2.device1.device_id) ∈
                links.map Prod.fst) := by
  intro sws
  induction sws with
  | nil =>
      intro links res _ h
      refine ⟨[], ?_, by simp, by simp, by simp, by simp⟩
      injection h with h
      rw [← h]
      simp
  | cons sw rest ih =>
      intro links res hsw h
      obtain ⟨sid, scfg⟩ := sw
      simp only [runSwitches] at h
      rcases hpass : runOthers sid (scfg.vlans.map (fun v => v.id)) links devices
          with e | l2
      · rw [hpass] at h; simp at h
      · rw [hpass] at h
        obtain ⟨new2, hres, hA2, hB2, hC2, hD2⟩ := ih l2 res
          (fun x hx => hsw x (List.mem_cons_of_mem _ hx)) h
        rcases runOthers_spec sid (scfg.vlans.map (fun v => v.id)) devices links
            l2 hpass with hsame | ⟨oid, ocfg, hoid, hne, hguard, hstrat, hk1, hk2, hadd⟩
        · subst hsame
          exact ⟨new2, hres, hA2, hB2, hC2, hD2⟩
        · subst hadd
          refine ⟨(sid ++ "-" ++ oid, swLinkEntry sid oid) :: new2, ?_, ?_, ?_, ?_, ?_⟩
          · rw [hres]
            simp
          · intro kl hkl
            rcases List.mem_cons.mp hkl with he | hm
            · subst he
              exact ⟨sid, scfg, oid, ocfg, rfl,
                (hsw (sid, scfg) (List.mem_cons_self _ _)).1,
                (hsw (sid, scfg) (List.mem_cons_self _ _)).2,
                hoid, hne, hstrat⟩
            · exact hA2 kl hm
          · intro kl hkl
            rcases List.mem_cons.mp hkl with he | hm
            · subst he
              simpa [swLinkEntry] using hguard
            · intro hmem
              refine hB2 kl hm ?_
              rw [device1Ids_append]
              exact List.mem_append.mpr (Or.inl hmem)
          · intro s
            by_cases hs : ((sid ++ "-" ++ oid, swLinkEntry sid oid) :
                String × Link).2.device1.device_id = s
            · have hzero : new2.filter
                  (fun kl => kl.2.device1.device_id = s) = [] := by
                refine List.filter_eq_nil_iff.mpr ?_
                intro kl hkl hdec
                have hds : kl.2.device1.device_id = s := by simpa using hdec
                refine hB2 kl hkl ?_
                rw [device1Ids_append]
                refine List.mem_append.mpr (Or.inr ?_)
                simp only [device1Ids, swLinkEntry, List.map_cons, List.map_nil]
                rw [hds, ← hs]
                exact List.mem_singleton.mpr rfl
              simp only [List.filter_cons, hzero]
              split <;> simp
            · have hrec := hC2 s
              simpa [List.filter_cons, hs] using hrec
          · intro kl hkl
            rcases List.mem_cons.mp hkl with he | hm
            · subst he
              constructor
              · exact mem_fst_of_lookup_none _ _ hk1
              · exact mem_fst_of_lookup_none _ _ hk2
            · have hD := hD2 kl hm
              constructor
              · intro hmem
                refine hD.1 ?_
                rw [List.map_append]
                exact List.mem_append.mpr (Or.inl hmem)
              · intro hmem
                refine hD.2 ?_
                rw [List.map_append]
                exact List.mem_append.mpr (Or.inl hmem)

/-- Claim C3 (amended): for every switch and candidate device, the builder
attempts an attachment exactly when the candidate differs from the switch
and the switch is not yet the first endpoint of any link accumulated so far
— not merely "not linked to that candidate"; consequently a switch gains at
most one link per pass.  Every link the pass adds joins a switch to a
strategy-matching candidate (VLAN overlap first, else router with equal
trailing character), carries 1000 Mbps and no subnet tag, and is inserted
only when neither ordering of the id pair is already a key. -/
theorem switch_attach_guard (devices : List (String × Device))
    (links res : Links)
    (h : connect_switches_to_segments devices links = .ok res) :
    ∃ new, res = links ++ new ∧
      (∀ kl ∈ new, ∃ sid scfg oid ocfg,
          kl = (sid ++ "-" ++ oid, swLinkEntry sid oid) ∧
          (sid, scfg) ∈ devices ∧ scfg.device_type = some "switch" ∧
          (oid, ocfg) ∈ devices ∧ oid ≠ sid ∧
          strategyOk sid (scfg.vlans.map (fun v => v.id)) oid ocfg) ∧
      (∀ kl ∈ new, kl.2.bandwidth_mbps = 1000 ∧ kl.2.subnet = none ∧
          kl.2.device1.interface = "mgmt" ∧ kl.2.device2.interface = "mgmt") ∧
      (∀ kl ∈ new, ¬ kl.2.device1.device_id ∈ device1Ids links) ∧
      (∀ s, ((new.filter (fun kl => kl.2.device1.device_id = s)).length ≤ 1)) ∧
      (∀ kl ∈ new, ¬ kl.1 ∈ links.map Prod.fst ∧
          ¬ (kl.2.device2.device_id ++ "-" ++ kl.2.device1.device_id) ∈
              links.map Prod.fst) := by
  unfold connect_switches_to_segments at h
  obtain ⟨new, hres, hA, hB, hC, hD⟩ := runSwitches_spec devices
    (devices.filter (fun dc => dc.2.device_type = some "switch")) links res
    (fun sw hsw => ⟨List.mem_of_mem_filter hsw, by
      have := List.mem_filter.mp hsw
      simpa using this.2⟩) h
  refine ⟨new, hres, hA, ?_, hB, hC, hD⟩
  intro kl hkl
  obtain ⟨sid, scfg, oid, ocfg, hkl2, _⟩ := hA kl hkl
  rw [hkl2]
  exact ⟨rfl, rfl, rfl, rfl⟩

/-- Witness for C3 (amended): running the pass on the switch/endpoint trio
satisfies every clause of the amended description. -/
theorem switch_attach_guard_witness :
    ∃ res new, connect_switches_to_segments devicesC3 [] = .ok res ∧
      res = [] ++ new ∧
      (∀ kl ∈ new, ¬ kl.2.device1.device_id ∈ device1Ids ([] : Links)) ∧
      (∀ s, ((new.filter (fun kl => kl.2.device1.device_id = s)).length ≤ 1)) := by
  obtain ⟨new, hres, _, _, hB, hC, _⟩ :=
    switch_attach_guard devicesC3 [] _ rfl
  exact ⟨_, new, rfl, hres, hB, hC⟩

/-- Counterexample for C3: endpoint E2 shares VLAN 10 with switch S1 and is
linked to nothing, yet after S1 gains its first link (to E1) the guard —
which tests whether S1 is device1 of any link at all — blocks every further
candidate, so no S1-E2 attachment is ever attempted. -/
theorem switch_attach_guard_cex :
    ∃ links, build_connections devicesC3 = .ok links ∧
      links.map Prod.fst = ["S1-E1"] ∧
      shares_vlan_segment epVlan10 (swS1.vlans.map (fun v => v.id)) = true ∧
      (∀ kl ∈ links, ¬ (kl.2.device1.device_id = "E2" ∨
          kl.2.device2.device_id = "E2")) := by
  refine ⟨_, rfl, ?_, ?_, ?_⟩ <;> decide

end NetVerif
